import Mathlib

/-!
Verification development for the disk-metrics collector
(scripts/collect_disk_metrics.py, scripts/client.py).

The Python source is shallowly embedded: every external command invocation
is modelled by its outcome (either a failure of the command, corresponding
to a raised subprocess error, or the decoded stdout text), floats are
modelled by rationals extended with infinities and nan, Python dicts by
insertion-ordered association lists, and uncaught Python exceptions by an
Except monad.  Each definition carries a comment naming the source lines
it embeds.
-/

namespace DiskMetrics

/-! ## Python primitives -/

/-- Outcome of one external command invocation: a raised error
(nonzero exit / missing binary), or the decoded stdout text. -/
abbrev CmdOut := Except Unit String

/-- Uncaught Python exception kinds that the embedded code can raise. -/
inductive PyErr where
  | typeError
  | attributeError
  | keyError
  | indexError
  | valueError
  deriving DecidableEq, Repr

/-- Decidable equality of embedded results, used to settle concrete runs
of the embedded code. -/
instance {ε α : Type} [DecidableEq ε] [DecidableEq α] : DecidableEq (Except ε α) :=
  fun a b =>
    match a, b with
    | .ok x, .ok y =>
        if h : x = y then isTrue (by rw [h])
        else isFalse (fun hh => h (Except.ok.inj hh))
    | .error e, .error f =>
        if h : e = f then isTrue (by rw [h])
        else isFalse (fun hh => h (Except.error.inj hh))
    | .ok _, .error _ => isFalse (fun hh => Except.noConfusion hh)
    | .error _, .ok _ => isFalse (fun hh => Except.noConfusion hh)

/-- Tests whether the first character list is a prefix of the second. -/
def listLeads : List Char → List Char → Bool
  | [], _ => true
  | _ :: _, [] => false
  | a :: as, b :: bs => a == b && listLeads as bs

/-- Tests whether the first character list occurs inside the second. -/
def containsSub : List Char → List Char → Bool
  | needle, [] => needle.isEmpty
  | needle, c :: cs => listLeads needle (c :: cs) || containsSub needle cs

/-- Splits a character list on whitespace runs, keeping no empty tokens;
the second argument accumulates the current token reversed. -/
def splitWSAux : List Char → List Char → List (List Char)
  | [], acc => if acc.isEmpty then [] else [acc.reverse]
  | c :: cs, acc =>
      if c.isWhitespace then
        if acc.isEmpty then splitWSAux cs [] else acc.reverse :: splitWSAux cs []
      else splitWSAux cs (c :: acc)

/-- Embeds Python str.split() with no arguments: split on whitespace runs,
discarding empty tokens. -/
def pySplit (s : String) : List String :=
  (splitWSAux s.toList []).map String.mk

/-- Splits a character list at every newline; a trailing newline yields no
final empty line (the Python splitlines convention). -/
def splitNlAux : List Char → List Char → List (List Char)
  | [], acc => if acc.isEmpty then [] else [acc.reverse]
  | c :: cs, acc =>
      if c = '\n' then acc.reverse :: splitNlAux cs []
      else splitNlAux cs (c :: acc)

/-- Embeds Python str.splitlines() for newline-terminated tool output. -/
def pySplitlines (s : String) : List String :=
  (splitNlAux s.toList []).map String.mk

/-- Splits a character list at every occurrence of a separator character,
keeping empty pieces (the Python str.split(sep) convention). -/
def splitSepAux (sep : Char) : List Char → List Char → List (List Char)
  | [], acc => [acc.reverse]
  | c :: cs, acc =>
      if c = sep then acc.reverse :: splitSepAux sep cs []
      else splitSepAux sep cs (c :: acc)

/-- Embeds Python str.split(sep) with a one-character separator. -/
def pySplitSep (sep : Char) (s : String) : List String :=
  (splitSepAux sep s.toList []).map String.mk

/-- Embeds the Python substring test (sub in s). -/
def pyInStr (sub s : String) : Bool :=
  containsSub sub.toList s.toList

/-- Embeds Python str.startswith. -/
def pyStartsWith (s pre : String) : Bool :=
  listLeads pre.toList s.toList

/-- Embeds Python str.strip() with no arguments. -/
def pyStrip (s : String) : String :=
  String.mk (((s.toList.dropWhile Char.isWhitespace).reverse.dropWhile Char.isWhitespace).reverse)

/-- Fuel-driven replacement of every occurrence of a nonempty needle. -/
def replaceFuel (needle repl : List Char) : Nat → List Char → List Char
  | 0, rest => rest
  | _ + 1, [] => []
  | fuel + 1, c :: cs =>
      if listLeads needle (c :: cs) then
        repl ++ replaceFuel needle repl fuel (List.drop (needle.length - 1) cs)
      else c :: replaceFuel needle repl fuel cs

/-- Embeds Python str.replace(a, b) for a nonempty pattern a. -/
def pyReplace (s a b : String) : String :=
  if a = "" then s
  else String.mk (replaceFuel a.toList b.toList (s.toList.length + 1) s.toList)

/-- Embeds next(i for i, line in enumerate(lines) if p line): index of the
first line satisfying p, or none (a StopIteration, caught by the probes). -/
def pyFindIdx (p : String → Bool) : List String → Option Nat
  | [] => none
  | l :: ls => if p l then some 0 else (pyFindIdx p ls).map (· + 1)

/-- Embeds Python list.index: position of the first occurrence, or none
(a ValueError, caught by the probes). -/
def pyIndexOf (xs : List String) (x : String) : Option Nat :=
  match xs with
  | [] => none
  | y :: ys => if y = x then some 0 else (pyIndexOf ys x).map (· + 1)

/-- Embeds Python dict assignment d[k] = v on an insertion-ordered dict:
replace in place if the key exists, otherwise append. -/
def updateAssoc {β : Type} : List (String × β) → String → β → List (String × β)
  | [], k, v => [(k, v)]
  | (k', v') :: rest, k, v =>
      if k' = k then (k, v) :: rest else (k', v') :: updateAssoc rest k v

/-- Embeds Python dict lookup d.get(k): first binding of the key. -/
def lookupA {β : Type} : List (String × β) → String → Option β
  | [], _ => none
  | (k', v') :: rest, k => if k' = k then some v' else lookupA rest k

/-! ## Python floats

Python float values produced by the script are modelled as exact
rationals extended with signed infinity and nan; every arithmetic
operation the script performs is defined on this type.  Rationals are
represented by a normalized fraction type whose operations reduce inside
the kernel, so concrete runs of the embedded program can be settled by
decide. -/

/-- Structural Euclidean algorithm with explicit fuel. -/
def gcdFuel : Nat → Nat → Nat → Nat
  | 0, _, b => b
  | _ + 1, 0, b => b
  | fuel + 1, a + 1, b => gcdFuel fuel (b % (a + 1)) (a + 1)

/-- Greatest common divisor via gcdFuel (enough fuel for Euclid). -/
def natGcd (a b : Nat) : Nat := gcdFuel (a + b + 1) a b

/-- Normalized fraction: numerator and positive denominator in lowest
terms, so structural equality is value equality. -/
structure Frac where
  num : ℤ
  den : Nat
  deriving DecidableEq, Repr

/-- Builds a normalized fraction from an integer numerator and a positive
natural denominator. -/
def mkFrac (n : ℤ) (d : Nat) : Frac :=
  let g := natGcd n.natAbs d
  if g = 0 then ⟨0, 1⟩ else ⟨n / (g : ℤ), d / g⟩

/-- Fraction for an integer. -/
def Frac.ofInt (n : ℤ) : Frac := ⟨n, 1⟩

/-- Addition of fractions. -/
def Frac.add (a b : Frac) : Frac :=
  mkFrac (a.num * (b.den : ℤ) + b.num * (a.den : ℤ)) (a.den * b.den)

/-- Negation of a fraction (normalization is preserved). -/
def Frac.neg (a : Frac) : Frac := ⟨-a.num, a.den⟩

/-- Subtraction of fractions. -/
def Frac.sub (a b : Frac) : Frac := a.add b.neg

/-- Multiplication of a fraction by a natural number. -/
def Frac.mulN (a : Frac) (k : Nat) : Frac := mkFrac (a.num * (k : ℤ)) a.den

/-- Division of a fraction by a positive natural number. -/
def Frac.divN (a : Frac) (k : Nat) : Frac := mkFrac a.num (a.den * k)

/-- Strict order on fractions (denominators are positive). -/
def Frac.blt (a b : Frac) : Bool :=
  a.num * (b.den : ℤ) < b.num * (a.den : ℤ)

/-- Model of a Python float: a finite rational, a signed infinity, or nan. -/
inductive PFloat where
  | finite (q : Frac)
  | inf (neg : Bool)
  | nan
  deriving DecidableEq, Repr

/-- Numeric value of a decimal digit character. -/
def digitVal (c : Char) : Nat := c.toNat - '0'.toNat

/-- Natural number denoted by a list of decimal digit characters. -/
def natOfDigits (ds : List Char) : Nat :=
  ds.foldl (fun acc c => 10 * acc + digitVal c) 0

/-- Consumes a maximal run of decimal digits allowing single underscores
between digits (the Python numeric-literal rule); returns the digits kept
and the unconsumed remainder. -/
def digitsCore : List Char → List Char × List Char
  | [] => ([], [])
  | c :: cs =>
      if c.isDigit then
        let r := digitsCore cs
        (c :: r.1, r.2)
      else if c = '_' then
        match cs with
        | d :: cs' =>
            if d.isDigit then
              let r := digitsCore cs'
              (d :: r.1, r.2)
            else ([], c :: d :: cs')
        | [] => ([], [c])
      else ([], c :: cs)

/-- Parses a digit group that must start with a digit; none otherwise. -/
def parseDigits (cs : List Char) : Option (List Char × List Char) :=
  match cs with
  | [] => none
  | c :: _ => if c.isDigit then some (digitsCore cs) else none

/-- Consumes an optional leading sign; returns (isNegative, rest). -/
def parseSign : List Char → Bool × List Char
  | '+' :: r => (false, r)
  | '-' :: r => (true, r)
  | r => (false, r)

/-- Finishes a float literal: integer digits, fraction digits, and an
optional exponent suffix that must consume the whole remainder. -/
def finishFloat (ds fs rest : List Char) : Option Frac :=
  let base : Frac := mkFrac (natOfDigits (ds ++ fs) : ℤ) (10 ^ fs.length)
  match rest with
  | [] => some base
  | e :: r =>
      if e = 'e' ∨ e = 'E' then
        let sr := parseSign r
        match parseDigits sr.2 with
        | some (es, r3) =>
            if r3 = [] then
              let ex := natOfDigits es
              some (if sr.1 then base.divN (10 ^ ex) else base.mulN (10 ^ ex))
            else none
        | none => none
      else none

/-- Parses the numeric body of a float literal (after the sign):
digits, optional point, optional fraction digits, optional exponent. -/
def parseNumeric (cs : List Char) : Option Frac :=
  match parseDigits cs with
  | some (ds, rest) =>
      match rest with
      | '.' :: r2 =>
          match parseDigits r2 with
          | some (fs, r3) => finishFloat ds fs r3
          | none => finishFloat ds [] r2
      | _ => finishFloat ds [] rest
  | none =>
      match cs with
      | '.' :: r2 =>
          match parseDigits r2 with
          | some (fs, r3) => finishFloat [] fs r3
          | none => none
      | _ => none

/-- Embeds Python float(str): strip whitespace, optional sign, then either
an infinity word, a nan word, or a decimal literal with optional exponent.
Returns none where Python float() raises ValueError. -/
def floatParse (s : String) : Option PFloat :=
  let cs := (pyStrip s).toList
  let sr := parseSign cs
  let low := sr.2.map Char.toLower
  if low = "inf".toList ∨ low = "infinity".toList then some (.inf sr.1)
  else if low = "nan".toList then some .nan
  else (parseNumeric sr.2).map (fun q => .finite (if sr.1 then q.neg else q))

/-- Embeds safe_float_conversion (collect_disk_metrics.py lines 152-168):
try float(value); on ValueError try float(value.replace(",", "."));
on a second ValueError return 0.0. -/
def safe_float_conversion (value : String) : PFloat :=
  match floatParse value with
  | some f => f
  | none =>
      match floatParse (pyReplace value "," ".") with
      | some f => f
      | none => .finite (Frac.ofInt 0)

/-- Embeds Python int(str) on a stripped token: optional sign then digits
(with underscores); none where Python int() raises ValueError. -/
def pyParseInt (s : String) : Option ℤ :=
  let sr := parseSign (pyStrip s).toList
  match parseDigits sr.2 with
  | some (ds, rest) =>
      if rest = [] then
        some (if sr.1 then -(natOfDigits ds : ℤ) else (natOfDigits ds : ℤ))
      else none
  | none => none

/-- Embeds Python str.isdigit for ASCII content: nonempty and all digits. -/
def pyIsDigit (s : String) : Bool :=
  s ≠ "" && s.toList.all Char.isDigit

/-- Negation of a Python float. -/
def PFloat.neg : PFloat → PFloat
  | .finite q => .finite q.neg
  | .inf b => .inf (!b)
  | .nan => .nan

/-- Addition of Python floats (nan absorbs, opposite infinities give nan). -/
def PFloat.add : PFloat → PFloat → PFloat
  | .nan, _ => .nan
  | _, .nan => .nan
  | .finite a, .finite b => .finite (a.add b)
  | .finite _, .inf b => .inf b
  | .inf a, .finite _ => .inf a
  | .inf a, .inf b => if a = b then .inf a else .nan

/-- Subtraction of Python floats. -/
def PFloat.sub (a b : PFloat) : PFloat := a.add b.neg

/-- Multiplication of a Python float by a positive natural constant. -/
def PFloat.mulN : PFloat → Nat → PFloat
  | .finite q, c => .finite (q.mulN c)
  | .inf b, _ => .inf b
  | .nan, _ => .nan

/-- Division of a Python float by a positive natural constant. -/
def PFloat.divN : PFloat → Nat → PFloat
  | .finite q, c => .finite (q.divN c)
  | .inf b, _ => .inf b
  | .nan, _ => .nan

/-- Embeds the Python strict greater-than test on floats: every comparison
with nan is false. -/
def PFloat.gtb : PFloat → PFloat → Bool
  | .nan, _ => false
  | _, .nan => false
  | .finite a, .finite b => Frac.blt b a
  | .finite _, .inf b => b
  | .inf a, .finite _ => !a
  | .inf a, .inf b => !a && b

/-- Embeds Python max over a list of floats: keep the current value and
replace it whenever the next item compares strictly greater. -/
def pyMaxList : List PFloat → PFloat
  | [] => .nan
  | x :: xs => xs.foldl (fun cur v => if PFloat.gtb v cur then v else cur) x

/-- Embeds Python sum over a list of floats (starting from the int 0,
which is promoted on the first addition). -/
def pfSumList (xs : List PFloat) : PFloat :=
  xs.foldl PFloat.add (.finite (Frac.ofInt 0))

/-! ## JSON values and Python runtime values -/

/-- Model of a value produced by json.loads: JSON numbers in the SMART
tables are integers. -/
inductive JVal where
  | num (n : ℤ)
  | str (s : String)
  | bool (b : Bool)
  | null
  | arr (xs : List JVal)
  | obj (fs : List (String × JVal))
  deriving Repr

mutual

/-- Structural equality on JSON values (Python ==). -/
def jvalBEq : JVal → JVal → Bool
  | .num a, .num b => a == b
  | .str a, .str b => a == b
  | .bool a, .bool b => a == b
  | .null, .null => true
  | .arr a, .arr b => jvalListBEq a b
  | .obj a, .obj b => jvalObjBEq a b
  | _, _ => false

/-- Elementwise equality on JSON arrays. -/
def jvalListBEq : List JVal → List JVal → Bool
  | [], [] => true
  | x :: xs, y :: ys => jvalBEq x y && jvalListBEq xs ys
  | _, _ => false

/-- Elementwise equality on JSON object field lists. -/
def jvalObjBEq : List (String × JVal) → List (String × JVal) → Bool
  | [], [] => true
  | (k, v) :: xs, (k', v') :: ys => k == k' && jvalBEq v v' && jvalObjBEq xs ys
  | _, _ => false

end

/-- Embeds Python truthiness of a json.loads result (the if smart_data:
test in the main block, line 896). -/
def jTruthy : JVal → Bool
  | .num n => n ≠ 0
  | .str s => s ≠ ""
  | .bool b => b
  | .null => false
  | .arr xs => !xs.isEmpty
  | .obj fs => !fs.isEmpty

/-- Embeds Python str() on a json.loads value, as used for str(attr.get(
"id", None)) on line 133. -/
def pyStrJ : JVal → String
  | .num n => toString n
  | .str s => s
  | .bool b => cond b "True" "False"
  | .null => "None"
  | .arr _ => "<list>"
  | .obj _ => "<dict>"

/-- Embeds the Python membership test (key in j): key lookup on dicts,
element equality on lists, substring on strings; TypeError otherwise. -/
def pyInJ (k : String) : JVal → Except PyErr Bool
  | .obj fs => .ok (fs.any (fun p => p.1 == k))
  | .arr xs => .ok (xs.any (fun x => jvalBEq x (.str k)))
  | .str s => .ok (pyInStr k s)
  | _ => .error .typeError

/-- Embeds Python subscripting j[k] with a string key: dict lookup
(KeyError when absent), TypeError on every other value. -/
def pySubscriptJ (j : JVal) (k : String) : Except PyErr JVal :=
  match j with
  | .obj fs =>
      match lookupA fs k with
      | some v => .ok v
      | none => .error .keyError
  | _ => .error .typeError

/-- Embeds Python j.get(k, d): dict lookup with a default; AttributeError
on every non-dict value. -/
def dictGetJ (j : JVal) (k : String) (d : JVal) : Except PyErr JVal :=
  match j with
  | .obj fs => .ok ((lookupA fs k).getD d)
  | _ => .error .attributeError

/-- Embeds Python iteration (for x in j): list elements, dict keys,
string characters; TypeError otherwise. -/
def iterJ : JVal → Except PyErr (List JVal)
  | .arr xs => .ok xs
  | .obj fs => .ok (fs.map (fun p => JVal.str p.1))
  | .str s => .ok (s.toList.map (fun c => JVal.str (String.singleton c)))
  | _ => .error .typeError

/-- Model of a Python runtime value stored in the metrics dict. -/
inductive Value where
  | vInt (n : ℤ)
  | vFloat (f : PFloat)
  | vStr (s : String)
  | vBool (b : Bool)
  | vNone
  | vObj (j : JVal)
  deriving Repr

/-- Python value obtained from storing a json.loads result in a dict. -/
def jvalToValue : JVal → Value
  | .num n => .vInt n
  | .str s => .vStr s
  | .bool b => .vBool b
  | .null => .vNone
  | j => .vObj j

/-- A metrics record: an insertion-ordered Python dict. -/
abbrev Record := List (String × Value)

/-- Embeds Python accumulation total += f where total starts as the
int 0 and becomes a float on the first addition (lines 608-616). -/
def pyAddV : Value → PFloat → Value
  | .vInt n, f => .vFloat (PFloat.add (.finite (Frac.ofInt n)) f)
  | .vFloat g, f => .vFloat (PFloat.add g f)
  | _, _ => .vFloat .nan

/-- Lifts an optional value into Except with the named Python error. -/
def exceptOf {α : Type} (o : Option α) (e : PyErr) : Except PyErr α :=
  match o with
  | some a => .ok a
  | none => .error e

/-! ## Device identity and SMART probes -/

/-- Embeds get_disk_info (lines 54-80): scan smartctl -i output for the
Device Model and Serial Number lines, taking the token after the first
colon; a failed command gives ("Unknown", "Unknown"); a marker line
without a colon raises an uncaught IndexError. -/
def infoScan : List String → String × String → Except PyErr (String × String)
  | [], acc => .ok acc
  | l :: ls, acc =>
      if pyInStr "Device Model" l then
        match (pySplitSep ':' l).get? 1 with
        | some x => infoScan ls (pyStrip x, acc.2)
        | none => .error .indexError
      else if pyInStr "Serial Number" l then
        match (pySplitSep ':' l).get? 1 with
        | some x => infoScan ls (acc.1, pyStrip x)
        | none => .error .indexError
      else infoScan ls acc

/-- Embeds get_disk_info on a command outcome (lines 54-80). -/
def get_disk_info (out : CmdOut) : Except PyErr (String × String) :=
  match out with
  | .error _ => .ok ("Unknown", "Unknown")
  | .ok o => infoScan (pySplitlines o) ("Unknown", "Unknown")

/-- Outcome of the smartctl -A -j invocation plus json.loads: the command
raised, the output was not valid JSON, or a parsed JSON value. -/
inductive SmartOutcome where
  | cmdError
  | badJson
  | parsed (j : JVal)
  deriving Repr

/-- Embeds get_smart_data (lines 83-106): None on command failure or a
JSON decode error, the parsed JSON value otherwise. -/
def get_smart_data : SmartOutcome → Option JVal
  | .cmdError => none
  | .badJson => none
  | .parsed j => some j

/-- Embeds re.match of a leading digit run (line 141): the maximal prefix
of decimal digits, or none when the string does not start with a digit. -/
def leadingDigits (s : String) : Option String :=
  match s.toList.takeWhile Char.isDigit with
  | [] => none
  | ds => some (String.mk ds)

/-- Embeds the attribute loop of parse_smart_metrics (lines 132-147):
for each table entry whose stringified id is required, store the
normalized value (the value field) and the raw value (leading digits of
raw.string, falling back to raw.value, then to the string "0"); calling
isdigit on a non-string raw value raises an uncaught AttributeError. -/
def smartFold (required_ids : List String) : List JVal → Record → Except PyErr Record
  | [], m => .ok m
  | attr :: rest, m => do
      let idv ← dictGetJ attr "id" JVal.null
      let attr_id := pyStrJ idv
      if attr_id ∈ required_ids then
        let normalized ← dictGetJ attr "value" (JVal.num 0)
        let x1 ← dictGetJ attr "raw" (JVal.obj [])
        let x2 ← dictGetJ attr "raw" (JVal.obj [])
        let y ← dictGetJ x2 "value" (JVal.str "0")
        let rawValue ← dictGetJ x1 "string" y
        let rv2 : JVal :=
          match rawValue with
          | .str s => .str ((leadingDigits s).getD "0")
          | v => v
        let rawVal : Value ←
          match rv2 with
          | .str s =>
              if pyIsDigit s then Except.ok (Value.vInt (natOfDigits s.toList : ℤ))
              else Except.ok (Value.vStr "0")
          | _ => Except.error PyErr.attributeError
        smartFold required_ids rest
          (updateAssoc
            (updateAssoc m ("smart_" ++ attr_id ++ "_normalized") (jvalToValue normalized))
            ("smart_" ++ attr_id ++ "_raw") rawVal)
      else smartFold required_ids rest m

/-- Embeds parse_smart_metrics (lines 109-149): seed the record with the
capture date, serial number and model, then walk the attribute table when
the ata_smart_attributes section is present. -/
def parse_smart_metrics (sd : JVal) (model serial : String)
    (required_ids : List String) (date : String) : Except PyErr Record := do
  let metrics : Record :=
    [("date", .vStr date), ("serial_number", .vStr serial), ("model", .vStr model)]
  let b ← pyInJ "ata_smart_attributes" sd
  if b then
    let asa ← pySubscriptJ sd "ata_smart_attributes"
    let table ← pySubscriptJ asa "table"
    let attrs ← iterJ table
    smartFold required_ids attrs metrics
  else
    .ok metrics

/-- Embeds the marker scan of get_disk_status (lines 186-189): on the
first line containing the health marker, return the trimmed token after
the last colon; falling off the loop returns Python None. -/
def statusScan : List String → Option String
  | [] => none
  | l :: ls =>
      if pyInStr "SMART overall-health self-assessment test result" l then
        some (pyStrip ((pySplitSep ':' l).getLastD ""))
      else statusScan ls

/-- Embeds get_disk_status (lines 173-192): a raised command error gives
"Unknown"; a successful command is scanned for the marker line, and when
no line matches the function implicitly returns Python None. -/
def get_disk_status (out : CmdOut) : Option String :=
  match out with
  | .error _ => some "Unknown"
  | .ok o => statusScan (pySplitSep '\n' o)

/-! ## iostat-based probes -/

/-- Header search shared by the iostat probes (for example lines 213-215):
index of the first line starting with Device, paired with its whitespace
split. -/
def deviceHeader (lines : List String) : Option (Nat × List String) :=
  (pyFindIdx (fun l => pyStartsWith l "Device") lines).map
    (fun i => (i, pySplit (lines.getD i "")))

/-- Identity transform on floats (probes that use the column value
unchanged). -/
def pfId (f : PFloat) : PFloat := f

/-- Embeds the unit conversion of the throughput probes
(lines 263-268 and 463-468). -/
def unitConv (unit : String) (f : PFloat) : PFloat :=
  if unit = "MB/s" then f.divN 1024
  else if unit = "B/s" then f.mulN 1024
  else f

/-- Embeds the data-row loop shape of lines 219-224: rows whose first
token is a requested device contribute the float at the column index;
a matching row shorter than the column index raises IndexError, which the
enclosing probe catches by discarding every collected value. -/
def ioScanT (tr : PFloat → PFloat) (j : Nat) (devices : List String) :
    List (List String) → List (String × PFloat) → Except PyErr (List (String × PFloat))
  | [], acc => .ok acc
  | [] :: rest, acc => ioScanT tr j devices rest acc
  | (p0 :: ps) :: rest, acc =>
      if p0 ∈ devices then
        match (p0 :: ps).get? j with
        | some tok => ioScanT tr j devices rest (updateAssoc acc p0 (tr (safe_float_conversion tok)))
        | none => .error .indexError
      else ioScanT tr j devices rest acc

/-- Embeds the guarded data-row loop shape of lines 305-315 and 418-425:
rows shorter than the column index are skipped, so no row raises. -/
def ioScanSafe (j : Nat) (devices : List String) :
    List (List String) → List (String × PFloat) → List (String × PFloat)
  | [], acc => acc
  | parts :: rest, acc =>
      match parts.get? j, parts.head? with
      | some tok, some p0 =>
          if p0 ∈ devices then
            ioScanSafe j devices rest (updateAssoc acc p0 (safe_float_conversion tok))
          else ioScanSafe j devices rest acc
      | _, _ => ioScanSafe j devices rest acc

/-- Name-addressed extraction for one column of an iostat table
(lines 216-224): resolve the column name in the header, then scan the
data rows for the requested devices. -/
def extractColumn (header : List String) (rows : List (List String))
    (col : String) (devices : List String) : Except PyErr (List (String × PFloat)) :=
  match pyIndexOf header col with
  | none => .error .valueError
  | some j => ioScanT pfId j devices rows []

/-- Body of get_io_queue_size after splitlines (lines 210-224). -/
def ioqFromLines (lines : List String) (devices : List String) :
    Option (List (String × PFloat)) :=
  match deviceHeader lines with
  | none => none
  | some (hi, headers) =>
      (extractColumn headers ((lines.drop (hi + 1)).map pySplit) "aqu-sz" devices).toOption

/-- Embeds get_io_queue_size (lines 196-227): aqu-sz per device; any
failure yields the dict mapping every device to the string "0". -/
def get_io_queue_size (out : CmdOut) (devices : List String) : List (String × Value) :=
  match out with
  | .error _ => devices.map (fun d => (d, Value.vStr "0"))
  | .ok o =>
      match ioqFromLines (pySplitlines o) devices with
      | none => devices.map (fun d => (d, Value.vStr "0"))
      | some m => m.map (fun p => (p.1, Value.vFloat p.2))

/-- Shared shape of the iostat probes that let a short matching row raise
IndexError (lines 244-274, 372-391, 447-474): any failure yields the dict
mapping every device to the float 0.0. -/
def iostatAbort (tr : PFloat → PFloat) (col : String) (out : CmdOut)
    (devices : List String) : List (String × PFloat) :=
  match out with
  | .error _ => devices.map (fun d => (d, PFloat.finite (Frac.ofInt 0)))
  | .ok o =>
      let lines := pySplitlines o
      match deviceHeader lines with
      | none => devices.map (fun d => (d, PFloat.finite (Frac.ofInt 0)))
      | some (hi, headers) =>
          match pyIndexOf headers col with
          | none => devices.map (fun d => (d, PFloat.finite (Frac.ofInt 0)))
          | some j =>
              match ioScanT tr j devices ((lines.drop (hi + 1)).map pySplit) [] with
              | .error _ => devices.map (fun d => (d, PFloat.finite (Frac.ofInt 0)))
              | .ok m => m

/-- Shared shape of the iostat probes that skip short rows
(lines 290-319, 407-430). -/
def iostatSafe (col : String) (out : CmdOut) (devices : List String) :
    List (String × PFloat) :=
  match out with
  | .error _ => devices.map (fun d => (d, PFloat.finite (Frac.ofInt 0)))
  | .ok o =>
      let lines := pySplitlines o
      match deviceHeader lines with
      | none => devices.map (fun d => (d, PFloat.finite (Frac.ofInt 0)))
      | some (hi, headers) =>
          match pyIndexOf headers col with
          | none => devices.map (fun d => (d, PFloat.finite (Frac.ofInt 0)))
          | some j => ioScanSafe j devices ((lines.drop (hi + 1)).map pySplit) []

/-- Embeds get_read_success_throughput (lines 231-274): rkB/s with unit
conversion. -/
def get_read_success_throughput (out : CmdOut) (devices : List String)
    (unit : String) : List (String × PFloat) :=
  iostatAbort (unitConv unit) "rkB/s" out devices

/-- Embeds get_read_work_item_queue_time (lines 278-319): r_await with a
length guard on each row. -/
def get_read_work_item_queue_time (out : CmdOut) (devices : List String) :
    List (String × PFloat) :=
  iostatSafe "r_await" out devices

/-- Embeds get_read_work_item_success_qps (lines 323-357): r/s with a
length guard on each row. -/
def get_read_work_item_success_qps (out : CmdOut) (devices : List String) :
    List (String × PFloat) :=
  iostatSafe "r/s" out devices

/-- Embeds get_write_work_item_success_qps (lines 361-391): w/s. -/
def get_write_work_item_success_qps (out : CmdOut) (devices : List String) :
    List (String × PFloat) :=
  iostatAbort pfId "w/s" out devices

/-- Embeds get_write_work_item_queue_time (lines 395-430): w_await with a
length guard on each row. -/
def get_write_work_item_queue_time (out : CmdOut) (devices : List String) :
    List (String × PFloat) :=
  iostatSafe "w_await" out devices

/-- Embeds get_write_success_throughput (lines 434-474): wkB/s with unit
conversion. -/
def get_write_success_throughput (out : CmdOut) (devices : List String)
    (unit : String) : List (String × PFloat) :=
  iostatAbort (unitConv unit) "wkB/s" out devices

/-- Embeds get_disk_utilization (lines 479-521): collect the percent-util
column, then return Python max and mean of the collected dict values, or
the int 0 pair when the dict is empty or any step failed. -/
def get_disk_utilization (out : CmdOut) (devices : List String) : Value × Value :=
  match out with
  | .error _ => (.vInt 0, .vInt 0)
  | .ok o =>
      let lines := pySplitlines o
      match deviceHeader lines with
      | none => (.vInt 0, .vInt 0)
      | some (hi, headers) =>
          match pyIndexOf headers "%util" with
          | none => (.vInt 0, .vInt 0)
          | some j =>
              match ioScanT pfId j devices ((lines.drop (hi + 1)).map pySplit) [] with
              | .error _ => (.vInt 0, .vInt 0)
              | .ok m =>
                  match m with
                  | [] => (.vInt 0, .vInt 0)
                  | _ =>
                      let vals := m.map (fun p => p.2)
                      (.vFloat (pyMaxList vals),
                       .vFloat ((pfSumList vals).divN m.length))

/-- Embeds the accumulating row loop of get_total_disk_read_write
(lines 608-616): matching rows add the kB_read and kB_wrtn columns to two
running totals that start as the int 0. -/
def tdrwScan (jr jw : Nat) (devices : List String) :
    List (List String) → Value × Value → Except PyErr (Value × Value)
  | [], acc => .ok acc
  | parts :: rest, acc =>
      match parts.head? with
      | none => tdrwScan jr jw devices rest acc
      | some p0 =>
          if p0 ∈ devices then
            match parts.get? jr with
            | none => .error .indexError
            | some tr =>
                match parts.get? jw with
                | none => .error .indexError
                | some tw =>
                    tdrwScan jr jw devices rest
                      (pyAddV acc.1 (safe_float_conversion tr),
                       pyAddV acc.2 (safe_float_conversion tw))
          else tdrwScan jr jw devices rest acc

/-- Embeds get_total_disk_read_write (lines 585-622). -/
def get_total_disk_read_write (out : CmdOut) (devices : List String) : Value × Value :=
  match out with
  | .error _ => (.vInt 0, .vInt 0)
  | .ok o =>
      let lines := pySplitlines o
      match deviceHeader lines with
      | none => (.vInt 0, .vInt 0)
      | some (hi, headers) =>
          match pyIndexOf headers "kB_read", pyIndexOf headers "kB_wrtn" with
          | some jr, some jw =>
              match tdrwScan jr jw devices ((lines.drop (hi + 1)).map pySplit) (.vInt 0, .vInt 0) with
              | .error _ => (.vInt 0, .vInt 0)
              | .ok acc => acc
          | _, _ => (.vInt 0, .vInt 0)

/-! ## netstat-based probes -/

/-- Embeds int(line.strip().split()[0]) (for example line 540): the first
whitespace token of the line parsed as a Python int; IndexError on a
blank line, ValueError on a non-integer token. -/
def lineLeadInt (l : String) : Except PyErr ℤ :=
  match (pySplit (pyStrip l)).head? with
  | none => .error .indexError
  | some t => exceptOf (pyParseInt t) .valueError

/-- Embeds the loop of get_tcp_outsegs_netstat (lines 538-543): return
the leading integer of the first line containing the marker; 0 when no
line matches. -/
def tcpOutsegsCore : List String → Except PyErr ℤ
  | [] => .ok 0
  | l :: ls =>
      if pyInStr "segments sent out" l then lineLeadInt l
      else tcpOutsegsCore ls

/-- Embeds get_tcp_outsegs_netstat (lines 525-546). -/
def get_tcp_outsegs_netstat (out : CmdOut) : ℤ :=
  match out with
  | .error _ => 0
  | .ok o => ((tcpOutsegsCore (pySplitlines o)).toOption).getD 0

/-- Embeds the loop of get_tcp_current_connections (lines 809-815): same
first-match shape with the connections-established marker. -/
def tcpEstabCore : List String → Except PyErr ℤ
  | [] => .ok 0
  | l :: ls =>
      if pyInStr "connections established" l then lineLeadInt l
      else tcpEstabCore ls

/-- Embeds get_tcp_current_connections (lines 796-818). -/
def get_tcp_current_connections (out : CmdOut) : ℤ :=
  match out with
  | .error _ => 0
  | .ok o => ((tcpEstabCore (pySplitlines o)).toOption).getD 0

/-- Embeds the two-marker accumulating loop shared by get_udp_stat_netstat
(lines 716-720) and get_net_pps (lines 747-751): an if/elif pair where
each later match overwrites the stored value. -/
def scan2 (m1 m2 : String) : List String → ℤ → ℤ → Except PyErr (ℤ × ℤ)
  | [], a, b => .ok (a, b)
  | l :: ls, a, b =>
      if pyInStr m1 l then
        match lineLeadInt l with
        | .error e => .error e
        | .ok v => scan2 m1 m2 ls v b
      else if pyInStr m2 l then
        match lineLeadInt l with
        | .error e => .error e
        | .ok v => scan2 m1 m2 ls a v
      else scan2 m1 m2 ls a b

/-- Embeds get_udp_stat_netstat (lines 699-725): (sent, received). -/
def get_udp_stat_netstat (out : CmdOut) : ℤ × ℤ :=
  match out with
  | .error _ => (0, 0)
  | .ok o => ((scan2 "datagrams sent" "datagrams received" (pySplitlines o) 0 0).toOption).getD (0, 0)

/-- Embeds get_net_pps (lines 729-756): (received, sent). -/
def get_net_pps (out : CmdOut) : ℤ × ℤ :=
  match out with
  | .error _ => (0, 0)
  | .ok o => ((scan2 "packets received" "packets sent" (pySplitlines o) 0 0).toOption).getD (0, 0)

/-! ## vmstat, free, mpstat, ifstat probes -/

/-- Embeds the body of get_page_activity after splitlines (lines 562-578):
column names si and so are resolved on the line after the procs marker,
values are read from the line two past the marker. -/
def pageActivityCore (lines : List String) : Except PyErr (ℤ × ℤ) := do
  let hi ← exceptOf (pyFindIdx (fun l => pyStartsWith l "procs") lines) .valueError
  let hline ← exceptOf (lines.get? (hi + 1)) .indexError
  let headers := pySplit hline
  let si ← exceptOf (pyIndexOf headers "si") .valueError
  let so ← exceptOf (pyIndexOf headers "so") .valueError
  let dline ← exceptOf (lines.get? (hi + 2)) .indexError
  let data := pySplit dline
  let pin ← exceptOf (data.get? si) .indexError
  let vi ← exceptOf (pyParseInt pin) .valueError
  let pout ← exceptOf (data.get? so) .indexError
  let vo ← exceptOf (pyParseInt pout) .valueError
  return (vi, vo)

/-- Embeds get_page_activity (lines 550-581). -/
def get_page_activity (out : CmdOut) : ℤ × ℤ :=
  match out with
  | .error _ => (0, 0)
  | .ok o => ((pageActivityCore (pySplitlines o)).toOption).getD (0, 0)

/-- The zero dict returned by get_memory_summary on an exception
(lines 659-664). -/
def memZeroDict : List (String × Value) :=
  [("total_mem_kb", .vInt 0), ("used_mem_kb", .vInt 0),
   ("free_mem_kb", .vInt 0), ("reserved_mem_kb", .vInt 0)]

/-- Embeds the line loop of get_memory_summary (lines 641-655): the first
line starting with a memory label yields the dict of floats (with a short
line collapsing to the zero dict through the exception handler); when no
line matches the function falls through and returns Python None. -/
def memCore : List String → Option (List (String × Value))
  | [] => none
  | l :: ls =>
      if pyStartsWith l "Mem:" || pyStartsWith l "Память:" then
        let parts := pySplit l
        match parts.get? 1, parts.get? 2, parts.get? 3 with
        | some a, some b, some c =>
            let t := safe_float_conversion a
            let u := safe_float_conversion b
            let fr := safe_float_conversion c
            some [("total_mem_kb", .vFloat t), ("used_mem_kb", .vFloat u),
                  ("free_mem_kb", .vFloat fr), ("reserved_mem_kb", .vFloat (t.sub u))]
        | _, _, _ => some memZeroDict
      else memCore ls

/-- Embeds get_memory_summary (lines 626-664): none models the implicit
Python None returned when no memory line is present. -/
def get_memory_summary (out : CmdOut) : Option (List (String × Value)) :=
  match out with
  | .error _ => some memZeroDict
  | .ok o => memCore (pySplitlines o)

/-- Embeds the data loop of get_cpu_kernel_usage (lines 686-692): on the
first line containing the substring all, kernel usage is 100 minus the
idle column; falling off the loop returns the int 0. -/
def cpuAllScan (ii : Nat) : List String → Except PyErr Value
  | [] => .ok (.vInt 0)
  | l :: ls =>
      if pyInStr "all" l then
        match (pySplit l).get? ii with
        | none => .error .indexError
        | some tok =>
            .ok (.vFloat ((PFloat.finite (Frac.ofInt 100)).sub (safe_float_conversion (pyReplace tok "," "."))))
      else cpuAllScan ii ls

/-- Embeds the body of get_cpu_kernel_usage after splitlines
(lines 679-692). -/
def cpuCore (lines : List String) : Except PyErr Value := do
  let hi ← exceptOf (pyFindIdx (fun l => pyInStr "CPU" l && pyInStr "%idle" l) lines) .valueError
  let headers := pySplit (lines.getD hi "")
  let ii ← exceptOf (pyIndexOf headers "%idle") .valueError
  cpuAllScan ii (lines.drop (hi + 1))

/-- Embeds get_cpu_kernel_usage (lines 668-695). -/
def get_cpu_kernel_usage (out : CmdOut) : Value :=
  match out with
  | .error _ => .vInt 0
  | .ok o => ((cpuCore (pySplitlines o)).toOption).getD (.vInt 0)

/-- Embeds the body of get_receive_speed after splitlines (lines 776-789):
interface names come from the first line, data from the third, and the
receive column of an interface sits at twice its position. -/
def receiveCore (lines : List String) (interface : String) : Except PyErr Value := do
  let l0 ← exceptOf (lines.get? 0) .indexError
  let interfaces := pySplit l0
  let l2 ← exceptOf (lines.get? 2) .indexError
  let data := pySplit l2
  match pyIndexOf interfaces interface with
  | none => .ok (.vInt 0)
  | some p =>
      match data.get? (p * 2) with
      | none => .error .indexError
      | some tok => .ok (.vFloat (safe_float_conversion tok))

/-- Embeds get_receive_speed (lines 760-792). -/
def get_receive_speed (out : CmdOut) (interface : String) : Value :=
  match out with
  | .error _ => .vInt 0
  | .ok o => ((receiveCore (pySplitlines o) interface).toOption).getD (.vInt 0)

/-! ## Schema, CSV sink and the per-device pass -/

/-- The required SMART attribute ids (lines 849-866), in dict insertion
order, which is already ascending numerically, so it coincides with
sorted(smart_attributes.keys(), key=int) from line 881. -/
def requiredIds : List String :=
  ["1", "3", "4", "5", "7", "9", "10", "12", "187", "188",
   "191", "192", "193", "194", "198", "199"]

/-- The fixed leading CSV columns (lines 869-878). -/
def baseFieldnames : List String :=
  ["date", "serial_number", "model", "disk_status",
   "io_queue_size", "read_throughput", "read_queue_time",
   "read_qps", "write_qps",
   "write_queue_time", "write_throughput",
   "disk_max_util", "disk_avg_util", "tcp_outsegs",
   "page_in", "page_out", "total_disk_read_kb",
   "total_disk_write_kb", "mem_res", "cpu_kernel",
   "udp_outdatagrams", "udp_indatagrams",
   "net_pps_receive", "net_pps_transmit",
   "receive_speed", "tcp_currestab"]

/-- The full CSV schema: base columns followed by a normalized and a raw
column per SMART id, ids ascending (lines 881-883). -/
def fieldnames : List String :=
  baseFieldnames ++
    requiredIds.flatMap (fun i => ["smart_" ++ i ++ "_normalized", "smart_" ++ i ++ "_raw"])

/-- One line of the local CSV store: the header row or a data row. -/
inductive CsvLine where
  | header (fs : List String)
  | row (vs : List Value)
  deriving Repr

/-- Tests whether a CSV line is the header. -/
def CsvLine.isHeader : CsvLine → Bool
  | .header _ => true
  | .row _ => false

/-- Embeds write_csv (lines 822-842) on an abstract store, where none
models an absent file: the header is written only when the file does not
exist yet; a record with a key outside the schema makes DictWriter raise
ValueError after the header write, which the handler swallows. -/
def write_csv (store : Option (List CsvLine)) (fns : List String)
    (metrics : Record) : Option (List CsvLine) :=
  let extras := metrics.any (fun p => !(fns.contains p.1))
  let r := CsvLine.row (fns.map (fun f => (lookupA metrics f).getD (Value.vStr "")))
  match store with
  | none => if extras then some [CsvLine.header fns] else some [CsvLine.header fns, r]
  | some ls => if extras then some ls else some (ls ++ [r])

/-- Embeds the schema back-fill loop (lines 993-995): every schema field
still absent is appended with the int 0. -/
def backfill (m : Record) (fns : List String) : Record :=
  fns.foldl (fun acc f => if (lookupA acc f).isSome then acc else acc ++ [(f, Value.vInt 0)]) m

/-- Inputs of one device iteration of the main loop: the device path, the
capture timestamp, and the outcome of every external command the
iteration runs (each invocation is a fresh snapshot). -/
structure DiskInput where
  disk : String
  date : String
  infoOut : CmdOut
  smartOutcome : SmartOutcome
  healthOut : CmdOut
  ioqOut : CmdOut
  readThrOut : CmdOut
  readQtOut : CmdOut
  readQpsOut : CmdOut
  writeQpsOut : CmdOut
  writeQtOut : CmdOut
  writeThrOut : CmdOut
  utilOut : CmdOut
  netstatTcpOut : CmdOut
  vmstatOut : CmdOut
  iostatKOut : CmdOut
  freeOut : CmdOut
  mpstatOut : CmdOut
  netstatUdpOut : CmdOut
  netstatPpsOut : CmdOut
  ifstatOut : CmdOut
  netstatEstabOut : CmdOut

/-- Value stored for get_disk_status output: the status string, or Python
None when the function fell off its loop. -/
def statusValue : Option String → Value
  | some s => .vStr s
  | none => .vNone

/-- Dict get with a float value against a NaN-string default, embedding
patterns like read_throughput.get(dev, "NaN") (line 913). -/
def getFloatNaN (m : List (String × PFloat)) (k : String) : Value :=
  match lookupA m k with
  | some f => .vFloat f
  | none => .vStr "NaN"

/-- Dict get with a float value against an int 0 default, embedding
patterns like write_qps.get(dev, 0) (line 931). -/
def getFloatZero (m : List (String × PFloat)) (k : String) : Value :=
  match lookupA m k with
  | some f => .vFloat f
  | none => .vInt 0

/-- Embeds one iteration of the main loop (lines 887-1003) up to the
sinks: device identity, the SMART query gate (the whole body is skipped
when get_smart_data returned None or a falsy JSON value), every probe in
program order, the back-fill, and the finished record. The value none
means the iteration produced no record for this device. -/
def collectDisk (d : DiskInput) : Except PyErr (Option Record) := do
  let info ← get_disk_info d.infoOut
  match get_smart_data d.smartOutcome with
  | none => return none
  | some sd =>
      if jTruthy sd then do
        let m0 ← parse_smart_metrics sd info.1 info.2 requiredIds d.date
        let dev := pyReplace d.disk "/dev/" ""
        let m1 := updateAssoc m0 "disk_status" (statusValue (get_disk_status d.healthOut))
        let m2 := updateAssoc m1 "io_queue_size"
          ((lookupA (get_io_queue_size d.ioqOut [dev]) dev).getD (.vStr "NaN"))
        let m3 := updateAssoc m2 "read_throughput"
          (getFloatNaN (get_read_success_throughput d.readThrOut [dev] "KB/s") dev)
        let m4 := updateAssoc m3 "read_queue_time"
          (getFloatNaN (get_read_work_item_queue_time d.readQtOut [dev]) dev)
        let m5 := updateAssoc m4 "read_qps"
          (getFloatNaN (get_read_work_item_success_qps d.readQpsOut [dev]) dev)
        let m6 := updateAssoc m5 "write_qps"
          (getFloatZero (get_write_work_item_success_qps d.writeQpsOut [dev]) dev)
        let m7 := updateAssoc m6 "write_queue_time"
          (getFloatNaN (get_write_work_item_queue_time d.writeQtOut [dev]) dev)
        let m8 := updateAssoc m7 "write_throughput"
          (getFloatZero (get_write_success_throughput d.writeThrOut [dev] "KB/s") dev)
        let util := get_disk_utilization d.utilOut [dev]
        let m9 := updateAssoc m8 "disk_max_util" util.1
        let m10 := updateAssoc m9 "disk_avg_util" util.2
        let m11 := updateAssoc m10 "tcp_outsegs" (.vInt (get_tcp_outsegs_netstat d.netstatTcpOut))
        let pa := get_page_activity d.vmstatOut
        let m12 := updateAssoc m11 "page_in" (.vInt pa.1)
        let m13 := updateAssoc m12 "page_out" (.vInt pa.2)
        let ds := get_total_disk_read_write d.iostatKOut [dev]
        let m14 := updateAssoc m13 "total_disk_read_kb" ds.1
        let m15 := updateAssoc m14 "total_disk_write_kb" ds.2
        let memv ←
          match get_memory_summary d.freeOut with
          | none => Except.error PyErr.typeError
          | some dict => Except.ok ((lookupA dict "reserved_mem_kb").getD (.vInt 0))
        let m16 := updateAssoc m15 "mem_res" memv
        let m17 := updateAssoc m16 "cpu_kernel" (get_cpu_kernel_usage d.mpstatOut)
        let udp := get_udp_stat_netstat d.netstatUdpOut
        let m18 := updateAssoc m17 "udp_outdatagrams" (.vInt udp.1)
        let m19 := updateAssoc m18 "udp_indatagrams" (.vInt udp.2)
        let pps := get_net_pps d.netstatPpsOut
        let m20 := updateAssoc m19 "net_pps_receive" (.vInt pps.1)
        let m21 := updateAssoc m20 "net_pps_transmit" (.vInt pps.2)
        let m22 := updateAssoc m21 "receive_speed" (get_receive_speed d.ifstatOut "eno1")
        let m23 := updateAssoc m22 "tcp_currestab" (.vInt (get_tcp_current_connections d.netstatEstabOut))
        return some (backfill m23 fieldnames)
      else return none

/-- State of the two sinks across the pass: the local CSV store (none
while the file does not exist) and the list of records handed to
send_metrics_to_server, which itself never raises (client.py 17-27). -/
structure PassState where
  store : Option (List CsvLine)
  sent : List Record

/-- Embeds the tail of one loop iteration (lines 1002-1003): a produced
record is appended to the CSV store and handed to the submission sink;
a skipped device leaves both sinks untouched. -/
def processDisk (st : PassState) (d : DiskInput) : Except PyErr PassState := do
  match ← collectDisk d with
  | none => return st
  | some r => return { store := write_csv st.store fieldnames r, sent := st.sent ++ [r] }

/-- Iterates processDisk over the remaining devices; an uncaught
exception in any iteration aborts the whole pass. -/
def runPassAux (st : PassState) : List DiskInput → Except PyErr PassState
  | [] => .ok st
  | d :: ds =>
      match processDisk st d with
      | .error e => .error e
      | .ok st' => runPassAux st' ds

/-- Embeds the whole main loop (lines 886-1003) starting from an absent
CSV file. -/
def runPass (ds : List DiskInput) : Except PyErr PassState :=
  runPassAux { store := none, sent := [] } ds

/-! ## Concrete fixtures used by the theorems -/

/-- A failed command invocation. -/
def errOut : CmdOut := Except.error ()

/-- Device inputs where every external command fails and the SMART JSON
query raises, the worst-case device of the error-handling scenarios. -/
def allFailInput : DiskInput :=
  { disk := "/dev/sda", date := "2024-01-01 00:00:00",
    infoOut := errOut, smartOutcome := SmartOutcome.cmdError, healthOut := errOut,
    ioqOut := errOut, readThrOut := errOut, readQtOut := errOut, readQpsOut := errOut,
    writeQpsOut := errOut, writeQtOut := errOut, writeThrOut := errOut, utilOut := errOut,
    netstatTcpOut := errOut, vmstatOut := errOut, iostatKOut := errOut, freeOut := errOut,
    mpstatOut := errOut, netstatUdpOut := errOut, netstatPpsOut := errOut, ifstatOut := errOut,
    netstatEstabOut := errOut }

/-- Device inputs where the SMART query succeeds with a truthy JSON value
but the free command prints no memory line. -/
def memFailInput : DiskInput :=
  { allFailInput with
    smartOutcome := SmartOutcome.parsed (JVal.obj [("some_key", JVal.null)]),
    freeOut := Except.ok "totals only\nnothing here" }

/-- SMART JSON whose table holds a raw string with trailing text and a
raw string with no leading digits. -/
def smartJsonStrings : JVal :=
  JVal.obj [("ata_smart_attributes", JVal.obj [("table", JVal.arr
    [JVal.obj [("id", JVal.num 5), ("value", JVal.num 100),
               ("raw", JVal.obj [("string", JVal.str "1620 (176 116 0)")])],
     JVal.obj [("id", JVal.num 9), ("value", JVal.num 95),
               ("raw", JVal.obj [("string", JVal.str "abc")])]])])]

/-- SMART JSON whose table holds an entry with no raw.string and a
numeric raw.value, the shape real smartctl output uses. -/
def smartJsonIntRaw : JVal :=
  JVal.obj [("ata_smart_attributes", JVal.obj [("table", JVal.arr
    [JVal.obj [("id", JVal.num 12), ("value", JVal.num 99),
               ("raw", JVal.obj [("value", JVal.num 1620)])]])])]

/-- Tests that a raw data line cannot contribute to the iostat scans for
the given devices: it has no tokens, or its first token is not a
requested device name. -/
def rowSkippedB (r : String) (devices : List String) : Bool :=
  match (pySplit r).head? with
  | none => true
  | some t => !(devices.contains t)

/-- Page-activity extraction from a given header line and a given data
line (the body of get_page_activity once the two line offsets are
resolved); used to exhibit which lines the code reads. -/
def pageActivityAt (hline dline : Option String) : Except PyErr (ℤ × ℤ) := do
  let hl ← exceptOf hline .indexError
  let headers := pySplit hl
  let si ← exceptOf (pyIndexOf headers "si") .valueError
  let so ← exceptOf (pyIndexOf headers "so") .valueError
  let dl ← exceptOf dline .indexError
  let data := pySplit dl
  let pin ← exceptOf (data.get? si) .indexError
  let vi ← exceptOf (pyParseInt pin) .valueError
  let pout ← exceptOf (data.get? so) .indexError
  let vo ← exceptOf (pyParseInt pout) .valueError
  return (vi, vo)

/-- Follows the claim words for vmstat: the column-name header line is
the marker line itself (the line starting with procs) and the data line
is marker line + 2.  Written only to compare against the code, which
reads the column names from marker line + 1. -/
def pageActivityClaim (lines : List String) : Except PyErr (ℤ × ℤ) := do
  let hi ← exceptOf (pyFindIdx (fun l => pyStartsWith l "procs") lines) .valueError
  pageActivityAt (lines.get? hi) (lines.get? (hi + 2))

/-! ## Helper lemmas -/

/-- A device whose SMART JSON query failed makes the main loop body skip
everything after the device-info call. -/
theorem collectDisk_skip (d : DiskInput) (info : String × String)
    (h1 : get_disk_info d.infoOut = .ok info)
    (h2 : get_smart_data d.smartOutcome = none) :
    collectDisk d = .ok none := by
  simp only [collectDisk, h1, h2]
  rfl

/-- A skipped device leaves both sinks untouched. -/
theorem processDisk_skip (d : DiskInput) (info : String × String)
    (h1 : get_disk_info d.infoOut = .ok info)
    (h2 : get_smart_data d.smartOutcome = none)
    (st : PassState) : processDisk st d = .ok st := by
  simp only [processDisk, collectDisk_skip d info h1 h2]
  rfl

/-- Removing a skipped device from anywhere in the device list does not
change the run of the remaining pass. -/
theorem runPassAux_skip (d : DiskInput) (info : String × String)
    (h1 : get_disk_info d.infoOut = .ok info)
    (h2 : get_smart_data d.smartOutcome = none)
    (pre post : List DiskInput) :
    ∀ st, runPassAux st (pre ++ d :: post) = runPassAux st (pre ++ post) := by
  induction pre with
  | nil =>
      intro st
      simp only [List.nil_append, runPassAux, processDisk_skip d info h1 h2 st]
  | cons x xs ih =>
      intro st
      simp only [List.cons_append, runPassAux]
      cases processDisk st x with
      | error e => rfl
      | ok st' => exact ih st'

/-! ## Claim C1 -/

/-- C1, counterexample: a device whose SMART JSON query fails produces no
record at all: after a pass over one such device the CSV store was never
created and nothing was submitted, contradicting the claim that a
complete default-filled record is appended and submitted. -/
theorem c1_counterexample :
    runPass [allFailInput] = Except.ok { store := none, sent := [] } := rfl

/-- C1, amended: when the SMART JSON query for a device fails (nonzero
exit or malformed JSON, so get_smart_data gives None), the main loop
produces no record for that device: the device is skipped entirely, both
sinks are left untouched, and the pass continues with the remaining
devices exactly as if the device were absent (provided the device-info
probe completed, which it does unless its output is malformed). -/
theorem c1_amended_smart_failure_skips_device
    (pre post : List DiskInput) (d : DiskInput)
    (h1 : ∃ info, get_disk_info d.infoOut = Except.ok info)
    (h2 : get_smart_data d.smartOutcome = none) :
    (∀ st, processDisk st d = Except.ok st) ∧
    runPass (pre ++ d :: post) = runPass (pre ++ post) := by
  obtain ⟨info, hinfo⟩ := h1
  exact ⟨processDisk_skip d info hinfo h2,
         runPassAux_skip d info hinfo h2 pre post _⟩

/-- C1, witness for the amended theorem at a concrete device. -/
theorem c1_amended_witness :
    processDisk { store := none, sent := [] } allFailInput =
      Except.ok { store := none, sent := [] } ∧
    runPass ([] ++ allFailInput :: []) = runPass ([] ++ []) := by
  have h := c1_amended_smart_failure_skips_device [] [] allFailInput
    ⟨("Unknown", "Unknown"), rfl⟩ rfl
  exact ⟨h.1 _, h.2⟩

/-! ## Claim C2 -/

/-- C2: record assembly can raise, contradicting the claim. When free
prints no memory summary line, get_memory_summary falls through and
returns Python None, and the assembly step metrics["mem_res"] =
memory_summary["reserved_mem_kb"] raises an uncaught TypeError that
aborts the record (and with it the whole pass), instead of contributing
the default value. -/
theorem c2_missing_mem_line_raises :
    get_memory_summary (Except.ok "totals only\nnothing here") = none ∧
    collectDisk memFailInput = Except.error PyErr.typeError := ⟨rfl, rfl⟩

/-! ## Claim C3 -/

/-- C3: the disk-status probe returns the trailing token after the colon
of the marker line and returns "Unknown" when the command raises, but
when the command succeeds and no line contains the marker phrase the
function falls off its loop and returns Python None, not "Unknown",
contradicting the claim (and the function docstring). -/
theorem c3_no_marker_returns_none :
    get_disk_status (Except.ok "smartctl 7.2\nno health section here") = none ∧
    get_disk_status
      (Except.ok "SMART overall-health self-assessment test result: PASSED") =
      some "PASSED" ∧
    get_disk_status (Except.error ()) = some "Unknown" := ⟨rfl, rfl, rfl⟩

/-! ## Claim C4 -/

/-- C4: decimal conversion parses "12.5" and "12,5" to the float 12.5
(the literal form first, then with the comma substituted), and every
string that neither attempt parses yields 0.0. -/
theorem c4_safe_float_conversion :
    safe_float_conversion "12.5" = PFloat.finite ⟨25, 2⟩ ∧
    safe_float_conversion "12,5" = PFloat.finite ⟨25, 2⟩ ∧
    ∀ s : String, floatParse s = none → floatParse (pyReplace s "," ".") = none →
      safe_float_conversion s = PFloat.finite (Frac.ofInt 0) := by
  refine ⟨by decide, by decide, ?_⟩
  intro s h1 h2
  simp only [safe_float_conversion, h1, h2]

/-- C4, witness: the string "abc" is parsable by neither attempt and
converts to 0.0. -/
theorem c4_witness :
    floatParse "abc" = none ∧ floatParse (pyReplace "abc" "," ".") = none ∧
    safe_float_conversion "abc" = PFloat.finite (Frac.ofInt 0) :=
  ⟨by decide, by decide, c4_safe_float_conversion.2.2 "abc" (by decide) (by decide)⟩

/-! ## Claim C5 -/

/-- C5: raw extraction keeps only the leading digit run of raw.string
("1620 (176 116 0)" gives the integer 1620, "abc" gives 0) and the
normalized metric is the value field; but the claimed fallback to
raw.value is broken for the numeric raw.value real smartctl JSON carries:
isdigit is called on an int and parse_smart_metrics raises an uncaught
AttributeError instead of producing 1620. -/
theorem c5_raw_extraction :
    parse_smart_metrics smartJsonStrings "m" "s" requiredIds "d" =
      Except.ok [("date", .vStr "d"), ("serial_number", .vStr "s"), ("model", .vStr "m"),
                 ("smart_5_normalized", .vInt 100), ("smart_5_raw", .vInt 1620),
                 ("smart_9_normalized", .vInt 95), ("smart_9_raw", .vInt 0)] ∧
    parse_smart_metrics smartJsonIntRaw "m" "s" requiredIds "d" =
      Except.error PyErr.attributeError := ⟨rfl, rfl⟩

/-! ## Claim C7 -/

/-- A record whose keys all lie in the schema triggers no DictWriter
extras error. -/
theorem any_extras_false (fns : List String) (m : Record)
    (hk : ∀ p ∈ m, p.1 ∈ fns) :
    m.any (fun p => !(fns.contains p.1)) = false := by
  induction m with
  | nil => rfl
  | cons x xs ih =>
      have hx : fns.contains x.1 = true :=
        List.elem_eq_true_of_mem (hk x (List.mem_cons_self x xs))
      simp only [List.any_cons, hx, Bool.not_true, Bool.false_or]
      exact ih (fun p hp => hk p (List.mem_cons_of_mem x hp))

/-- Appending a schema-conforming record to an existing store adds
exactly one data row and no header. -/
theorem write_csv_append (fns : List String) (ls : List CsvLine) (m : Record)
    (hk : ∀ p ∈ m, p.1 ∈ fns) :
    write_csv (some ls) fns m =
      some (ls ++ [CsvLine.row (fns.map (fun f => (lookupA m f).getD (Value.vStr "")))]) := by
  simp only [write_csv, any_extras_false fns m hk]
  rfl

/-- Folding schema-conforming records over an existing store appends one
data row per record and never another header. -/
theorem fold_write_rows (fns : List String) (recs : List Record)
    (hk : ∀ r ∈ recs, ∀ p ∈ r, p.1 ∈ fns) :
    ∀ ls, ∃ rows,
      recs.foldl (fun st r => write_csv st fns r) (some ls) = some (ls ++ rows) ∧
      rows.length = recs.length ∧ ∀ l ∈ rows, l.isHeader = false := by
  induction recs with
  | nil => exact fun ls => ⟨[], by simp, rfl, by simp⟩
  | cons r rs ih =>
      intro ls
      have hr := hk r (List.mem_cons_self r rs)
      have ihr := ih (fun q hq => hk q (List.mem_cons_of_mem r hq))
      obtain ⟨rows, hfold, hlen, hhead⟩ :=
        ihr (ls ++ [CsvLine.row (fns.map (fun f => (lookupA r f).getD (Value.vStr "")))])
      refine ⟨CsvLine.row (fns.map (fun f => (lookupA r f).getD (Value.vStr ""))) :: rows,
             ?_, by simp [hlen], ?_⟩
      · rw [List.foldl_cons, write_csv_append fns ls r hr, hfold, List.append_assoc]
        rfl
      · intro l hl
        cases hl with
        | head => rfl
        | tail _ h => exact hhead l h

/-- C7: writing N schema-conforming records to an empty store (the CSV
file does not exist yet) yields exactly one header line, written on the
first write only, followed by exactly N data rows. -/
theorem c7_header_once (fns : List String) (recs : List Record)
    (hne : recs ≠ [])
    (hk : ∀ r ∈ recs, ∀ p ∈ r, p.1 ∈ fns) :
    ∃ rows,
      recs.foldl (fun st r => write_csv st fns r) none =
        some (CsvLine.header fns :: rows) ∧
      rows.length = recs.length ∧ ∀ l ∈ rows, l.isHeader = false := by
  match recs, hne with
  | r :: rs, _ =>
      have hr := hk r (List.mem_cons_self r rs)
      have h0 : write_csv none fns r =
          some [CsvLine.header fns,
                CsvLine.row (fns.map (fun f => (lookupA r f).getD (Value.vStr "")))] := by
        simp only [write_csv, any_extras_false fns r hr]
        rfl
      obtain ⟨rows, hfold, hlen, hhead⟩ :=
        fold_write_rows fns rs (fun q hq => hk q (List.mem_cons_of_mem r hq))
          [CsvLine.header fns,
           CsvLine.row (fns.map (fun f => (lookupA r f).getD (Value.vStr "")))]
      refine ⟨CsvLine.row (fns.map (fun f => (lookupA r f).getD (Value.vStr ""))) :: rows,
             ?_, by simp [hlen], ?_⟩
      · rw [List.foldl_cons, h0, hfold]
        rfl
      · intro l hl
        cases hl with
        | head => rfl
        | tail _ h => exact hhead l h

/-- C7, witness: two concrete records written to the empty store. -/
theorem c7_witness :
    ∃ rows,
      ([[("a", Value.vInt 1)], [("a", Value.vInt 2)]] : List Record).foldl
          (fun st r => write_csv st ["a"] r) none =
        some (CsvLine.header ["a"] :: rows) ∧
      rows.length = 2 ∧ ∀ l ∈ rows, l.isHeader = false :=
  c7_header_once ["a"] [[("a", Value.vInt 1)], [("a", Value.vInt 2)]]
    (List.cons_ne_nil _ _) (by decide)

/-! ## Claim C6 -/

/-- Looking up a key in a constant dict over the device list only
succeeds for a listed device. -/
theorem lookupA_mapSelf_isSome {β : Type} (devices : List String) (c : String → β)
    (k : String) (h : (lookupA (devices.map (fun d => (d, c d))) k).isSome = true) :
    k ∈ devices := by
  induction devices with
  | nil => simp [lookupA] at h
  | cons d ds ih =>
      by_cases hd : d = k
      · exact hd ▸ List.mem_cons_self d ds
      · simp only [List.map_cons, lookupA, hd, if_false] at h
        exact List.mem_cons_of_mem d (ih h)

/-- A key-preserving map over a dict does not change which keys resolve. -/
theorem lookupA_map_isSome {β γ : Type} (m : List (String × β)) (g : β → γ)
    (k : String) :
    (lookupA (m.map (fun p => (p.1, g p.2))) k).isSome = (lookupA m k).isSome := by
  induction m with
  | nil => rfl
  | cons x xs ih =>
      by_cases hx : x.1 = k
      · simp [lookupA, hx]
      · simp [lookupA, hx, ih]

/-- Keys resolving after a dict update are the updated key or keys that
resolved before. -/
theorem lookupA_updateAssoc_isSome {β : Type} (m : List (String × β)) (a : String)
    (v : β) (k : String)
    (h : (lookupA (updateAssoc m a v) k).isSome = true) :
    (lookupA m k).isSome = true ∨ k = a := by
  induction m with
  | nil =>
      by_cases hk : a = k
      · exact Or.inr hk.symm
      · simp [updateAssoc, lookupA, hk] at h
  | cons x xs ih =>
      obtain ⟨x1, x2⟩ := x
      by_cases hxa : x1 = a
      · by_cases hak : a = k
        · exact Or.inr hak.symm
        · left
          simp only [updateAssoc, hxa, if_true, lookupA, hak, if_false] at h
          have hx1k : ¬ x1 = k := by rw [hxa]; exact hak
          simp only [lookupA, hx1k, if_false]
          exact h
      · simp only [updateAssoc, hxa, if_false] at h
        by_cases hxk : x1 = k
        · left
          simp [lookupA, hxk]
        · simp only [lookupA, hxk, if_false] at h ⊢
          exact ih h

/-- Every key the iostat row scan resolves was already in the
accumulator or is a requested device. -/
theorem ioScanT_keys (tr : PFloat → PFloat) (j : Nat) (devices : List String)
    (k : String) :
    ∀ (rows : List (List String)) (acc m : List (String × PFloat)),
      ioScanT tr j devices rows acc = .ok m →
      (lookupA m k).isSome = true →
      (lookupA acc k).isSome = true ∨ k ∈ devices := by
  intro rows
  induction rows with
  | nil =>
      intro acc m hscan hk
      simp only [ioScanT] at hscan
      cases hscan
      exact Or.inl hk
  | cons parts rest ih =>
      intro acc m hscan hk
      cases parts with
      | nil =>
          simp only [ioScanT] at hscan
          exact ih acc m hscan hk
      | cons p0 ps =>
          simp only [ioScanT] at hscan
          by_cases hp : p0 ∈ devices
          · rw [if_pos hp] at hscan
            cases hg : (p0 :: ps).get? j with
            | none => rw [hg] at hscan; cases hscan
            | some tok =>
                rw [hg] at hscan
                rcases ih _ m hscan hk with h | h
                · rcases lookupA_updateAssoc_isSome acc p0 _ k h with h' | h'
                  · exact Or.inl h'
                  · exact Or.inr (h' ▸ hp)
                · exact Or.inr h
          · rw [if_neg hp] at hscan
            exact ih acc m hscan hk

/-- Interpretation of a true rowSkippedB test. -/
theorem rowSkippedB_spec (r : String) (devices : List String)
    (h : rowSkippedB r devices = true) :
    ∀ p0, (pySplit r).head? = some p0 → p0 ∉ devices := by
  intro p0 hp0 hmem
  have hc : devices.contains p0 = true := List.elem_eq_true_of_mem hmem
  simp only [rowSkippedB, hp0, hc] at h
  exact absurd h (by simp)

/-- A token row that is empty or starts with an unrequested device can be
dropped from anywhere in the scanned rows without changing the scan. -/
theorem ioScanT_middle (tr : PFloat → PFloat) (j : Nat) (devices : List String)
    (ρ : List String) (b : List (List String))
    (hρ : ∀ p0, ρ.head? = some p0 → p0 ∉ devices) :
    ∀ (a : List (List String)) (acc : List (String × PFloat)),
      ioScanT tr j devices (a ++ ρ :: b) acc = ioScanT tr j devices (a ++ b) acc := by
  intro a
  induction a with
  | nil =>
      intro acc
      cases ρ with
      | nil => simp only [List.nil_append, ioScanT]
      | cons p0 ps =>
          have hp := hρ p0 rfl
          simp only [List.nil_append, ioScanT, hp, if_false]
  | cons parts a' ih =>
      intro acc
      cases parts with
      | nil =>
          simp only [List.cons_append, ioScanT]
          exact ih acc
      | cons p0 ps =>
          simp only [List.cons_append, ioScanT]
          by_cases hp : p0 ∈ devices
          · rw [if_pos hp, if_pos hp]
            cases (p0 :: ps).get? j with
            | none => rfl
            | some tok => exact ih _
          · rw [if_neg hp, if_neg hp]
            exact ih acc

/-- A leading line that does not start with the Device marker does not
affect the io-queue extraction. -/
theorem ioqFromLines_cons_skip (x : String) (L : List String)
    (devices : List String) (hx : pyStartsWith x "Device" = false) :
    ioqFromLines (x :: L) devices = ioqFromLines L devices := by
  simp only [ioqFromLines, deviceHeader, pyFindIdx, hx, Bool.false_eq_true, if_false]
  cases hf : pyFindIdx (fun l => pyStartsWith l "Device") L with
  | none => rfl
  | some i =>
      simp only [hf, Option.map_some', List.getD_cons_succ, List.drop_succ_cons]

/-- A leading Device header line fixes the header row and the scanned
data rows of the io-queue extraction. -/
theorem ioqFromLines_cons_device (x : String) (L : List String)
    (devices : List String) (hx : pyStartsWith x "Device" = true) :
    ioqFromLines (x :: L) devices =
      (extractColumn (pySplit x) (L.map pySplit) "aqu-sz" devices).toOption := by
  simp only [ioqFromLines, deviceHeader, pyFindIdx, hx, if_true, Option.map_some',
    List.getD_cons_zero, List.drop_succ_cons, List.drop_zero]

/-- Keys resolved by the io-queue extraction on a successful parse are
requested devices. -/
theorem ioqFromLines_keys (lines : List String) (devices : List String)
    (k : String) (m : List (String × PFloat))
    (hq : ioqFromLines lines devices = some m)
    (h : (lookupA m k).isSome = true) : k ∈ devices := by
  unfold ioqFromLines at hq
  cases hdh : deviceHeader lines with
  | none => rw [hdh] at hq; cases hq
  | some p =>
      obtain ⟨hi, hd⟩ := p
      rw [hdh] at hq
      unfold extractColumn at hq
      cases hidx : pyIndexOf hd "aqu-sz" with
      | none =>
          simp only [hidx, Except.toOption] at hq
          exact Option.noConfusion hq
      | some j =>
          simp only [hidx] at hq
          cases hscan : ioScanT pfId j devices ((lines.drop (hi + 1)).map pySplit) [] with
          | error e =>
              simp only [hscan, Except.toOption] at hq
              exact Option.noConfusion hq
          | ok m' =>
              simp only [hscan, Except.toOption, Option.some.injEq] at hq
              subst hq
              rcases ioScanT_keys pfId j devices k _ _ _ hscan h with h' | h'
              · simp [lookupA] at h'
              · exact h'

/-- C6: iostat rows contribute only on an exact first-token match.  First
part: every device key the io-queue probe resolves is a requested device
(for every probe outcome).  Second part: a data line whose first token is
not a requested device name (in particular a line for partition sda1 when
sda was requested) contributes nothing to the extraction. -/
theorem c6_exact_token_match :
    (∀ (out : CmdOut) (devices : List String) (k : String),
       (lookupA (get_io_queue_size out devices) k).isSome = true → k ∈ devices) ∧
    (∀ (pre post : List String) (r : String) (devices : List String),
       pyStartsWith r "Device" = false → rowSkippedB r devices = true →
       ioqFromLines (pre ++ r :: post) devices = ioqFromLines (pre ++ post) devices) := by
  constructor
  · intro out devices k h
    cases out with
    | error e => exact lookupA_mapSelf_isSome devices _ k h
    | ok o =>
        simp only [get_io_queue_size] at h
        cases hq : ioqFromLines (pySplitlines o) devices with
        | none => rw [hq] at h; exact lookupA_mapSelf_isSome devices _ k h
        | some m =>
            rw [hq] at h
            rw [lookupA_map_isSome] at h
            exact ioqFromLines_keys _ devices k m hq h
  · intro pre post r devices hr hskip
    induction pre with
    | nil => exact ioqFromLines_cons_skip r post devices hr
    | cons x pre' ih =>
        cases hx : pyStartsWith x "Device" with
        | false =>
            rw [List.cons_append, ioqFromLines_cons_skip x _ devices hx,
               List.cons_append, ioqFromLines_cons_skip x _ devices hx]
            exact ih
        | true =>
            rw [List.cons_append, List.cons_append,
               ioqFromLines_cons_device x _ devices hx,
               ioqFromLines_cons_device x _ devices hx]
            unfold extractColumn
            cases pyIndexOf (pySplit x) "aqu-sz" with
            | none => rfl
            | some j =>
                show (ioScanT pfId j devices ((pre' ++ r :: post).map pySplit) []).toOption =
                  (ioScanT pfId j devices ((pre' ++ post).map pySplit) []).toOption
                rw [List.map_append, List.map_cons, List.map_append,
                   ioScanT_middle pfId j devices (pySplit r) (post.map pySplit)
                     (rowSkippedB_spec r devices hskip)]

/-- C6, witness: with sda requested, an sda1 row contributes nothing, and
a resolved key is a requested device. -/
theorem c6_witness :
    ("sda" ∈ ["sda"]) ∧
    ioqFromLines (["Device aqu-sz"] ++ "sda1 9.9" :: ["sda 0.05"]) ["sda"] =
      ioqFromLines (["Device aqu-sz"] ++ ["sda 0.05"]) ["sda"] := by
  constructor
  · exact c6_exact_token_match.1
      (Except.ok "Device aqu-sz\nsda 0.05\n") ["sda"] "sda" (by decide)
  · exact c6_exact_token_match.2 ["Device aqu-sz"] ["sda 0.05"] "sda1 9.9" ["sda"]
      (by decide) (by decide)

/-! ## Claim C10 -/

/-- The single-marker netstat loop returns the leading integer of the
first marker line. -/
theorem tcpOutsegsCore_first (pre post : List String) (l : String) (v : ℤ)
    (hpre : ∀ l' ∈ pre, pyInStr "segments sent out" l' = false)
    (hl : pyInStr "segments sent out" l = true)
    (hv : lineLeadInt l = Except.ok v) :
    tcpOutsegsCore (pre ++ l :: post) = Except.ok v := by
  induction pre with
  | nil => simp only [List.nil_append, tcpOutsegsCore, hl, if_true, hv]
  | cons x xs ih =>
      have hx := hpre x (List.mem_cons_self x xs)
      simp only [List.cons_append, tcpOutsegsCore, hx, Bool.false_eq_true, if_false]
      exact ih (fun l' hl' => hpre l' (List.mem_cons_of_mem x hl'))

/-- Splitting a two-marker scan at a list append point. -/
theorem scan2_append (m1 m2 : String) (xs ys : List String) :
    ∀ a b, scan2 m1 m2 (xs ++ ys) a b =
      match scan2 m1 m2 xs a b with
      | .error e => .error e
      | .ok p => scan2 m1 m2 ys p.1 p.2 := by
  induction xs with
  | nil => intro a b; rfl
  | cons x xs ih =>
      intro a b
      simp only [List.cons_append, scan2]
      cases hb1 : pyInStr m1 x with
      | true =>
          simp only [if_true]
          cases lineLeadInt x with
          | error e => rfl
          | ok v => exact ih v b
      | false =>
          simp only [Bool.false_eq_true, if_false]
          cases hb2 : pyInStr m2 x with
          | true =>
              simp only [if_true]
              cases lineLeadInt x with
              | error e => rfl
              | ok v => exact ih a v
          | false =>
              simp only [Bool.false_eq_true, if_false]
              exact ih a b

/-- A two-marker scan succeeds when every marker line parses. -/
theorem scan2_isOk (m1 m2 : String) (ls : List String)
    (hok : ∀ l ∈ ls, (pyInStr m1 l = true ∨ pyInStr m2 l = true) →
      (lineLeadInt l).isOk = true) :
    ∀ a b, (scan2 m1 m2 ls a b).isOk = true := by
  induction ls with
  | nil => intro a b; rfl
  | cons x xs ih =>
      intro a b
      have ihx := ih (fun l hl h => hok l (List.mem_cons_of_mem x hl) h)
      simp only [scan2]
      cases hb1 : pyInStr m1 x with
      | true =>
          simp only [if_true]
          cases hlx : lineLeadInt x with
          | error e =>
              have := hok x (List.mem_cons_self x xs) (Or.inl hb1)
              rw [hlx] at this
              exact absurd this (by simp [Except.isOk, Except.toBool])
          | ok v => exact ihx v b
      | false =>
          simp only [Bool.false_eq_true, if_false]
          cases hb2 : pyInStr m2 x with
          | true =>
              simp only [if_true]
              cases hlx : lineLeadInt x with
              | error e =>
                  have := hok x (List.mem_cons_self x xs) (Or.inr hb2)
                  rw [hlx] at this
                  exact absurd this (by simp [Except.isOk, Except.toBool])
              | ok v => exact ihx a v
          | false =>
              simp only [Bool.false_eq_true, if_false]
              exact ihx a b

/-- A scan over lines free of the first marker never changes the first
accumulator. -/
theorem scan2_fst_const (m1 m2 : String) (ls : List String)
    (h1 : ∀ l ∈ ls, pyInStr m1 l = false)
    (hok : ∀ l ∈ ls, pyInStr m2 l = true → (lineLeadInt l).isOk = true) :
    ∀ a b, Except.map Prod.fst (scan2 m1 m2 ls a b) = Except.ok a := by
  induction ls with
  | nil => intro a b; rfl
  | cons x xs ih =>
      intro a b
      have ihx := ih (fun l hl => h1 l (List.mem_cons_of_mem x hl))
        (fun l hl h => hok l (List.mem_cons_of_mem x hl) h)
      have hx := h1 x (List.mem_cons_self x xs)
      simp only [scan2, hx, Bool.false_eq_true, if_false]
      cases hb2 : pyInStr m2 x with
      | true =>
          simp only [if_true]
          cases hlx : lineLeadInt x with
          | error e =>
              have := hok x (List.mem_cons_self x xs) hb2
              rw [hlx] at this
              exact absurd this (by simp [Except.isOk, Except.toBool])
          | ok v => exact ihx a v
      | false =>
          simp only [Bool.false_eq_true, if_false]
          exact ihx a b

/-- A scan over lines free of the second marker never changes the second
accumulator. -/
theorem scan2_snd_const (m1 m2 : String) (ls : List String)
    (h2 : ∀ l ∈ ls, pyInStr m2 l = false)
    (hok : ∀ l ∈ ls, pyInStr m1 l = true → (lineLeadInt l).isOk = true) :
    ∀ a b, Except.map Prod.snd (scan2 m1 m2 ls a b) = Except.ok b := by
  induction ls with
  | nil => intro a b; rfl
  | cons x xs ih =>
      intro a b
      have ihx := ih (fun l hl => h2 l (List.mem_cons_of_mem x hl))
        (fun l hl h => hok l (List.mem_cons_of_mem x hl) h)
      have hx := h2 x (List.mem_cons_self x xs)
      simp only [scan2]
      cases hb1 : pyInStr m1 x with
      | true =>
          simp only [if_true]
          cases hlx : lineLeadInt x with
          | error e =>
              have := hok x (List.mem_cons_self x xs) hb1
              rw [hlx] at this
              exact absurd this (by simp [Except.isOk, Except.toBool])
          | ok v => exact ihx v b
      | false =>
          simp only [Bool.false_eq_true, if_false, hx]
          exact ihx a b

/-- The first component of a two-marker scan is the leading integer of
the last line containing the first marker, provided every marker line
parses. -/
theorem scan2_fst_last (m1 m2 : String) (pre post : List String) (l : String)
    (v : ℤ)
    (hok : ∀ l' ∈ pre ++ l :: post,
      (pyInStr m1 l' = true ∨ pyInStr m2 l' = true) → (lineLeadInt l').isOk = true)
    (hl1 : pyInStr m1 l = true)
    (hv : lineLeadInt l = Except.ok v)
    (hpost : ∀ l' ∈ post, pyInStr m1 l' = false) :
    ∀ a b, Except.map Prod.fst (scan2 m1 m2 (pre ++ l :: post) a b) = Except.ok v := by
  intro a b
  rw [scan2_append]
  have hpreok : (scan2 m1 m2 pre a b).isOk = true :=
    scan2_isOk m1 m2 pre
      (fun l' hl' h => hok l' (List.mem_append_left _ hl') h) a b
  cases hsc : scan2 m1 m2 pre a b with
  | error e => rw [hsc] at hpreok; exact absurd hpreok (by simp [Except.isOk, Except.toBool])
  | ok p =>
      show Except.map Prod.fst (scan2 m1 m2 (l :: post) p.1 p.2) = Except.ok v
      simp only [scan2, hl1, if_true, hv]
      exact scan2_fst_const m1 m2 post
        (fun l' hl' => hpost l' hl')
        (fun l' hl' h => hok l'
          (List.mem_append_right _ (List.mem_cons_of_mem l hl')) (Or.inr h)) v p.2

/-- The second component of a two-marker scan is the leading integer of
the last line containing the second marker and not the first, provided
every marker line parses. -/
theorem scan2_snd_last (m1 m2 : String) (pre post : List String) (l : String)
    (v : ℤ)
    (hok : ∀ l' ∈ pre ++ l :: post,
      (pyInStr m1 l' = true ∨ pyInStr m2 l' = true) → (lineLeadInt l').isOk = true)
    (hl1 : pyInStr m1 l = false)
    (hl2 : pyInStr m2 l = true)
    (hv : lineLeadInt l = Except.ok v)
    (hpost : ∀ l' ∈ post, pyInStr m2 l' = false) :
    ∀ a b, Except.map Prod.snd (scan2 m1 m2 (pre ++ l :: post) a b) = Except.ok v := by
  intro a b
  rw [scan2_append]
  have hpreok : (scan2 m1 m2 pre a b).isOk = true :=
    scan2_isOk m1 m2 pre
      (fun l' hl' h => hok l' (List.mem_append_left _ hl') h) a b
  cases hsc : scan2 m1 m2 pre a b with
  | error e => rw [hsc] at hpreok; exact absurd hpreok (by simp [Except.isOk, Except.toBool])
  | ok p =>
      show Except.map Prod.snd (scan2 m1 m2 (l :: post) p.1 p.2) = Except.ok v
      simp only [scan2, hl1, Bool.false_eq_true, if_false, hl2, if_true, hv]
      exact scan2_snd_const m1 m2 post
        (fun l' hl' => hpost l' hl')
        (fun l' hl' h => hok l'
          (List.mem_append_right _ (List.mem_cons_of_mem l hl')) (Or.inl h)) p.1 v

/-- Extracting the pair behind a successful two-marker probe. -/
theorem scan2_getD_of_ok (m1 m2 : String) (ls : List String) (p : ℤ × ℤ)
    (h : scan2 m1 m2 ls 0 0 = Except.ok p) :
    ((scan2 m1 m2 ls 0 0).toOption).getD (0, 0) = p := by
  rw [h]; rfl

/-- Components of a successful two-marker probe from its mapped images. -/
theorem scan2_components (m1 m2 : String) (ls : List String) (v w : ℤ)
    (hok : (scan2 m1 m2 ls 0 0).isOk = true)
    (hfst : Except.map Prod.fst (scan2 m1 m2 ls 0 0) = Except.ok v)
    (hsnd : Except.map Prod.snd (scan2 m1 m2 ls 0 0) = Except.ok w) :
    ((scan2 m1 m2 ls 0 0).toOption).getD (0, 0) = (v, w) := by
  cases hsc : scan2 m1 m2 ls 0 0 with
  | error e => rw [hsc] at hok; exact absurd hok (by simp [Except.isOk, Except.toBool])
  | ok p =>
      rw [hsc] at hfst hsnd
      simp only [Except.map, Except.ok.injEq] at hfst hsnd
      rw [show p = (v, w) from Prod.ext hfst hsnd]
      rfl

/-- C10: when several netstat lines match the same marker, the
TCP-segments probe keeps the first match (it returns from inside its
loop), while the UDP-datagram and packet-count probes keep the last
match of each of their markers (each later match overwrites the stored
value), whenever every matching line carries a leading integer and no
line matches two markers of the same probe at once. -/
theorem c10_netstat_first_last :
    (∀ (o : String) (pre post : List String) (l : String) (v : ℤ),
       pySplitlines o = pre ++ l :: post →
       (∀ l' ∈ pre, pyInStr "segments sent out" l' = false) →
       pyInStr "segments sent out" l = true →
       lineLeadInt l = Except.ok v →
       get_tcp_outsegs_netstat (Except.ok o) = v) ∧
    (∀ (o : String) (preS postS preR postR : List String) (lS lR : String) (vS vR : ℤ),
       pySplitlines o = preS ++ lS :: postS →
       pySplitlines o = preR ++ lR :: postR →
       (∀ l' ∈ pySplitlines o,
         (pyInStr "datagrams sent" l' = true ∨ pyInStr "datagrams received" l' = true) →
         (lineLeadInt l').isOk = true) →
       pyInStr "datagrams sent" lS = true →
       lineLeadInt lS = Except.ok vS →
       (∀ l' ∈ postS, pyInStr "datagrams sent" l' = false) →
       pyInStr "datagrams sent" lR = false →
       pyInStr "datagrams received" lR = true →
       lineLeadInt lR = Except.ok vR →
       (∀ l' ∈ postR, pyInStr "datagrams received" l' = false) →
       get_udp_stat_netstat (Except.ok o) = (vS, vR)) ∧
    (∀ (o : String) (preR postR preT postT : List String) (lR lT : String) (vR vT : ℤ),
       pySplitlines o = preR ++ lR :: postR →
       pySplitlines o = preT ++ lT :: postT →
       (∀ l' ∈ pySplitlines o,
         (pyInStr "packets received" l' = true ∨ pyInStr "packets sent" l' = true) →
         (lineLeadInt l').isOk = true) →
       pyInStr "packets received" lR = true →
       lineLeadInt lR = Except.ok vR →
       (∀ l' ∈ postR, pyInStr "packets received" l' = false) →
       pyInStr "packets received" lT = false →
       pyInStr "packets sent" lT = true →
       lineLeadInt lT = Except.ok vT →
       (∀ l' ∈ postT, pyInStr "packets sent" l' = false) →
       get_net_pps (Except.ok o) = (vR, vT)) := by
  refine ⟨?_, ?_, ?_⟩
  · intro o pre post l v hsplit hpre hl hv
    simp only [get_tcp_outsegs_netstat, hsplit,
      tcpOutsegsCore_first pre post l v hpre hl hv]
    rfl
  · intro o preS postS preR postR lS lR vS vR hS hR hok hlS hvS hpostS hlRn hlR hvR hpostR
    simp only [get_udp_stat_netstat]
    have hfst := hS ▸ scan2_fst_last "datagrams sent" "datagrams received"
      preS postS lS vS (hS ▸ hok) hlS hvS hpostS
    have hsnd := hR ▸ scan2_snd_last "datagrams sent" "datagrams received"
      preR postR lR vR (hR ▸ hok) hlRn hlR hvR hpostR
    exact scan2_components "datagrams sent" "datagrams received" (pySplitlines o)
      vS vR (scan2_isOk _ _ _ hok 0 0) (by rw [hS]; exact hS ▸ hfst 0 0)
      (by rw [hR]; exact hR ▸ hsnd 0 0)
  · intro o preR postR preT postT lR lT vR vT hRm hT hok hlR hvR hpostR hlTn hlT hvT hpostT
    simp only [get_net_pps]
    exact scan2_components "packets received" "packets sent" (pySplitlines o)
      vR vT (scan2_isOk _ _ _ hok 0 0)
      (by rw [hRm]
          exact scan2_fst_last "packets received" "packets sent"
            preR postR lR vR (hRm ▸ hok) hlR hvR hpostR 0 0)
      (by rw [hT]
          exact scan2_snd_last "packets received" "packets sent"
            preT postT lT vT (hT ▸ hok) hlTn hlT hvT hpostT 0 0)

/-- C10, witness: concrete netstat outputs with repeated markers, showing
first-match for TCP segments and last-match for the UDP and packet
counters. -/
theorem c10_witness :
    get_tcp_outsegs_netstat
      (Except.ok " 5 segments sent out\n 6 segments sent out\n") = 5 ∧
    get_udp_stat_netstat
      (Except.ok " 1 datagrams sent\n 2 datagrams sent\n 3 datagrams received\n") = (2, 3) ∧
    get_net_pps
      (Except.ok " 7 packets received\n 8 packets received\n 9 packets sent\n") = (8, 9) := by
  refine ⟨?_, ?_, ?_⟩
  · exact c10_netstat_first_last.1 " 5 segments sent out\n 6 segments sent out\n"
      [] [" 6 segments sent out"] " 5 segments sent out" 5
      (by decide) (by decide) (by decide) rfl
  · exact c10_netstat_first_last.2.1
      " 1 datagrams sent\n 2 datagrams sent\n 3 datagrams received\n"
      [" 1 datagrams sent"] [" 3 datagrams received"]
      [" 1 datagrams sent", " 2 datagrams sent"] []
      " 2 datagrams sent" " 3 datagrams received" 2 3
      (by decide) (by decide) (by decide) (by decide) rfl (by decide)
      (by decide) (by decide) rfl (by decide)
  · exact c10_netstat_first_last.2.2
      " 7 packets received\n 8 packets received\n 9 packets sent\n"
      [" 7 packets received"] [" 9 packets sent"]
      [" 7 packets received", " 8 packets received"] []
      " 8 packets received" " 9 packets sent" 8 9
      (by decide) (by decide) (by decide) (by decide) rfl (by decide)
      (by decide) (by decide) rfl (by decide)

/-! ## Claim C9 -/

/-- C9, counterexample: on vmstat output whose marker line also happens
to contain si and so tokens, the code reads the column names from the
line after the marker and yields (7, 9), while the claim (header names on
the marker line itself) predicts column indices that run past the data
line and would fail; so the claim, as stated, is false. -/
theorem c9_counterexample :
    pageActivityCore ["procs xx si so", "si so", "7 9"] = Except.ok (7, 9) ∧
    pageActivityClaim ["procs xx si so", "si so", "7 9"] =
      Except.error PyErr.indexError ∧
    pageActivityCore ["procs xx si so", "si so", "7 9"] ≠
      pageActivityClaim ["procs xx si so", "si so", "7 9"] := by
  refine ⟨rfl, rfl, ?_⟩
  intro h
  rw [show pageActivityCore ["procs xx si so", "si so", "7 9"] =
        Except.ok ((7 : ℤ), (9 : ℤ)) from rfl,
     show pageActivityClaim ["procs xx si so", "si so", "7 9"] =
        Except.error PyErr.indexError from rfl] at h
  exact Except.noConfusion h

/-- C9, amended: for vmstat the column names si and so are resolved on
the line one past the procs marker line and the values are read from the
line two past the marker; for ifstat the interface names come from the
first line, the data from the third line, and the receive value of an
interface sits at twice its position among the interface names. -/
theorem c9_amended_offsets :
    (∀ (lines : List String) (hi : Nat),
       pyFindIdx (fun l => pyStartsWith l "procs") lines = some hi →
       pageActivityCore lines =
         pageActivityAt (lines.get? (hi + 1)) (lines.get? (hi + 2))) ∧
    (∀ (l0 l1 l2 : String) (rest : List String) (iface : String) (p : Nat) (tok : String),
       pyIndexOf (pySplit l0) iface = some p →
       (pySplit l2).get? (p * 2) = some tok →
       receiveCore (l0 :: l1 :: l2 :: rest) iface =
         Except.ok (Value.vFloat (safe_float_conversion tok))) := by
  constructor
  · intro lines hi h
    simp only [pageActivityCore, pageActivityAt, h, exceptOf]
    rfl
  · intro l0 l1 l2 rest iface p tok h1 h2
    simp only [receiveCore, exceptOf, List.get?, Bind.bind, Except.bind, h1, h2]

/-- C9, witness for the amended theorem on concrete vmstat and ifstat
outputs. -/
theorem c9_amended_witness :
    pageActivityCore ["procs hdr", "r b si so", "1 2 7 9"] =
      pageActivityAt (some "r b si so") (some "1 2 7 9") ∧
    receiveCore ["eth0 eno1", "KB/s in KB/s out", "1.0 2.0 3.5 4.0"] "eno1" =
      Except.ok (Value.vFloat (safe_float_conversion "3.5")) := by
  constructor
  · exact c9_amended_offsets.1 ["procs hdr", "r b si so", "1 2 7 9"] 0 (by decide)
  · exact c9_amended_offsets.2 "eth0 eno1" "KB/s in KB/s out" "1.0 2.0 3.5 4.0" []
      "eno1" 1 "3.5" (by decide) (by decide)

/-! ## Claim C8 -/

/-- Python list.index misses exactly the absent values. -/
theorem pyIndexOf_eq_none (l : List String) (x : String) (hx : x ∉ l) :
    pyIndexOf l x = none := by
  induction l with
  | nil => rfl
  | cons y ys ih =>
      have hy : ¬ y = x := fun h => hx (h ▸ List.mem_cons_self y ys)
      simp only [pyIndexOf, hy, if_false,
        ih (fun h => hx (List.mem_cons_of_mem y h)), Option.map_none']

/-- On a duplicate-free list, Python list.index finds the position of the
stored value. -/
theorem pyIndexOf_nodup_get (x : String) :
    ∀ (l : List String), l.Nodup → ∀ (i : Nat) (hi : i < l.length),
      l.get ⟨i, hi⟩ = x → pyIndexOf l x = some i := by
  intro l
  induction l with
  | nil => intro _ i hi; exact absurd hi (by simp)
  | cons y ys ih =>
      intro hnd i hi hx
      obtain ⟨hy, hys⟩ := List.nodup_cons.mp hnd
      cases i with
      | zero =>
          simp only [List.get] at hx
          simp only [pyIndexOf, hx, if_true]
      | succ k =>
          simp only [List.get] at hx
          have hkx : x ∈ ys := hx ▸ List.get_mem ys k _
          have hyx : ¬ y = x := fun h => hy (h ▸ hkx)
          simp only [pyIndexOf, hyx, if_false,
            ih hys k (Nat.lt_of_succ_lt_succ hi) hx, Option.map_some']

/-- Python list.index over an injectively generated list recovers the
generating position. -/
theorem pyIndexOf_ofFn_inj {n : ℕ} (f : Fin n → String)
    (hf : Function.Injective f) (j : Fin n) :
    pyIndexOf (List.ofFn f) (f j) = some j.val := by
  have hnd : (List.ofFn f).Nodup := List.nodup_ofFn.mpr hf
  have hlen : j.val < (List.ofFn f).length := by
    rw [List.length_ofFn]; exact j.isLt
  refine pyIndexOf_nodup_get (f j) (List.ofFn f) hnd j.val hlen ?_
  simp [List.get_ofFn]

/-- The iostat row scan is unchanged when every row function is read
through a permutation fixing position zero, provided the column index is
transported through the same permutation. -/
theorem ioScanT_ofFn_perm (tr : PFloat → PFloat) (devices : List String)
    (m : ℕ) (σ : Equiv.Perm (Fin (m + 1))) (h0 : σ 0 = 0) (j0 : Fin (m + 1)) :
    ∀ (rows : List (Fin (m + 1) → String)) (acc : List (String × PFloat)),
      ioScanT tr (σ.symm j0).val devices
          (rows.map (fun r => List.ofFn (fun i => r (σ i)))) acc =
        ioScanT tr j0.val devices (rows.map (fun r => List.ofFn r)) acc := by
  intro rows
  induction rows with
  | nil => intro acc; rfl
  | cons r rest ih =>
      intro acc
      have hLA : List.ofFn (fun i => r (σ i)) =
          r 0 :: List.ofFn (fun i : Fin m => r (σ i.succ)) := by
        rw [List.ofFn_succ, h0]
      have hLB : List.ofFn r = r 0 :: List.ofFn (fun i : Fin m => r i.succ) := by
        rw [List.ofFn_succ]
      have hgA : (List.ofFn (fun i => r (σ i))).get? (σ.symm j0).val = some (r j0) := by
        rw [List.get?_ofFn]
        simp [List.ofFnNthVal, (σ.symm j0).isLt]
      have hgB : (List.ofFn r).get? j0.val = some (r j0) := by
        rw [List.get?_ofFn]
        simp [List.ofFnNthVal, j0.isLt]
      rw [hLA] at hgA
      rw [hLB] at hgB
      rw [List.map_cons, List.map_cons, hLA, hLB]
      simp only [ioScanT]
      by_cases hp : r 0 ∈ devices
      · rw [if_pos hp, if_pos hp]
        simp only [hgA, hgB]
        exact ih _
      · rw [if_neg hp, if_neg hp]
        exact ih acc

/-- C8, counterexample: the claim quantifies over all column
permutations, but a permutation that moves the Device column off
position zero changes the extracted value (the device key is matched
positionally against the first token), and so does a permutation of two
identically named columns; so the claim, as stated, is false. -/
theorem c8_counterexample :
    extractColumn ["aqu-sz", "Device"] [["1.5", "sda"]] "aqu-sz" ["sda"] ≠
      extractColumn ["Device", "aqu-sz"] [["sda", "1.5"]] "aqu-sz" ["sda"] ∧
    extractColumn ["Device", "aqu-sz", "aqu-sz"] [["sda", "2.0", "1.0"]] "aqu-sz" ["sda"] ≠
      extractColumn ["Device", "aqu-sz", "aqu-sz"] [["sda", "1.0", "2.0"]] "aqu-sz" ["sda"] := by
  exact ⟨by decide, by decide⟩

/-- C8, amended: name-addressed extraction is column-order independent
for every permutation that fixes the first (device-key) column, whenever
the header names are pairwise distinct and each data row is permuted
correspondingly. -/
theorem c8_amended_column_permutation
    (n : ℕ) (header : Fin n → String) (rows : List (Fin n → String))
    (σ : Equiv.Perm (Fin n)) (col : String) (devices : List String)
    (hinj : Function.Injective header)
    (h0 : ∀ i : Fin n, i.val = 0 → σ i = i) :
    extractColumn (List.ofFn (fun i => header (σ i)))
        (rows.map (fun r => List.ofFn (fun i => r (σ i)))) col devices
      = extractColumn (List.ofFn header) (rows.map (fun r => List.ofFn r)) col devices := by
  by_cases hcol : ∃ j0, header j0 = col
  · obtain ⟨j0, hj0⟩ := hcol
    have hinjA : Function.Injective (fun i => header (σ i)) :=
      fun a b h => σ.injective (hinj h)
    have hidxB : pyIndexOf (List.ofFn header) col = some j0.val := by
      rw [← hj0]; exact pyIndexOf_ofFn_inj header hinj j0
    have hidxA : pyIndexOf (List.ofFn (fun i => header (σ i))) col =
        some (σ.symm j0).val := by
      have := pyIndexOf_ofFn_inj (fun i => header (σ i)) hinjA (σ.symm j0)
      simp only [Equiv.apply_symm_apply, hj0] at this
      exact this
    unfold extractColumn
    rw [hidxA, hidxB]
    cases n with
    | zero => exact j0.elim0
    | succ m =>
        have h0' : σ 0 = 0 := h0 0 rfl
        exact ioScanT_ofFn_perm pfId devices m σ h0' j0 rows []
  · have hB : pyIndexOf (List.ofFn header) col = none := by
      refine pyIndexOf_eq_none _ _ ?_
      intro hmem
      obtain ⟨i, hi⟩ := (List.mem_ofFn header col).mp hmem
      exact hcol ⟨i, hi⟩
    have hA : pyIndexOf (List.ofFn (fun i => header (σ i))) col = none := by
      refine pyIndexOf_eq_none _ _ ?_
      intro hmem
      obtain ⟨i, hi⟩ := (List.mem_ofFn _ col).mp hmem
      exact hcol ⟨σ i, hi⟩
    unfold extractColumn
    rw [hA, hB]

/-- C8, witness: a concrete three-column iostat header with the second
and third columns swapped by a permutation fixing the Device column. -/
theorem c8_amended_witness :
    extractColumn
        (List.ofFn (fun i => (!["Device", "aqu-sz", "r/s"] : Fin 3 → String)
          (Equiv.swap 1 2 i)))
        ([!["sda", "1.5", "7.0"]].map
          (fun r => List.ofFn (fun i => r (Equiv.swap 1 2 i)))) "aqu-sz" ["sda"]
      = extractColumn (List.ofFn (!["Device", "aqu-sz", "r/s"] : Fin 3 → String))
          ([!["sda", "1.5", "7.0"]].map (fun r => List.ofFn r)) "aqu-sz" ["sda"] :=
  c8_amended_column_permutation 3 !["Device", "aqu-sz", "r/s"]
    [!["sda", "1.5", "7.0"]] (Equiv.swap 1 2) "aqu-sz" ["sda"]
    (by decide) (by decide)

end DiskMetrics
